import Mathlib

/-!
# Terminal editor: line store, render cache, viewport scroll and key handling

A shallow embedding of `src/main.cpp`.

Conventions of the embedding.

* A byte is a `Nat` (its code); `'\t'` is 9, `' '` is 32, `'\n'` is 10, `'\r'` is 13.
* `size_t` values are `Nat`.  A subtraction that the source does not guard
  is `subz`, which wraps modulo `2 ^ 64` the way `size_t` does.  Sums stay in `Nat`:
  no state that fits in memory brings a sum of these fields near `2 ^ 64`.
* A heap buffer is the list of the bytes (or array elements) that may be read
  from it.  `Line_Data.Data` holds the `Size` content bytes (the terminating
  zero byte, never read by the modelled code, is left out), `Term_Editor.Lines`
  holds the allocated `Line_Data` elements.  A freed buffer is the empty list.
* Reading a `Line_Data` outside `Lines` is undefined behaviour in the source;
  the functions that can do it return `Option`, and `none` stands for it.
* The function-local `persist int quitTimes` and the global `GlobalRunning`
  are carried as fields of the state.
-/

namespace TerminalEditor

/-- The constant `TAB_WIDTH`. -/
def TAB_WIDTH : Nat := 8

/-- The byte `'\t'`. -/
def TAB : Nat := 9

/-- The byte `' '`. -/
def SPACE : Nat := 32

/-- The byte `'\n'`. -/
def NEWLINE : Nat := 10

/-- The byte `'\r'`. -/
def CR : Nat := 13

/-- The number of values of a `size_t` (64-bit target). -/
def SIZE_MOD : Nat := 2 ^ 64

/-- Subtraction of `size_t` values: wraps around when `b` exceeds `a`. -/
def subz (a b : Nat) : Nat := if b ≤ a then a - b else a + SIZE_MOD - b

/-- The union `v2u`, used through its fields `x` and `y`. -/
structure v2u where
  x : Nat
  y : Nat
deriving DecidableEq, Repr

/-- The struct `Line_Data`: raw bytes with their size, render bytes with theirs. -/
structure Line_Data where
  Size : Nat
  Data : List Nat
  RenderSize : Nat
  RenderData : List Nat
deriving DecidableEq, Repr

/-- The struct `Term_Editor`, without the terminal and output-buffer fields,
together with `quitTimes` (static local of ProcessKeyInput) and `GlobalRunning`. -/
structure Term_Editor where
  Filename : Option String
  StatusMessage : String
  Dirty : Bool
  RowCount : Nat
  ColumnCount : Nat
  CursorPos : v2u
  RenderCursorX : Nat
  Offset : v2u
  LineCount : Nat
  Lines : List Line_Data
  quitTimes : Int
  GlobalRunning : Bool
deriving DecidableEq, Repr

/-- The constant `QUIT_TIMES`. -/
def QUIT_TIMES : Int := 1

/-! ## Key codes -/

/-- The macro `CTRL_KEY(key)`, `key & 0x1f`. -/
def CTRL_KEY (key : Nat) : Nat := key % 32

def KeyType_Backspace : Nat := 127
def KeyType_Up : Nat := 128
def KeyType_Down : Nat := 129
def KeyType_Left : Nat := 130
def KeyType_Right : Nat := 131
def KeyType_PageUp : Nat := 132
def KeyType_PageDown : Nat := 133
def KeyType_Home : Nat := 134
def KeyType_End : Nat := 135
def KeyType_Del : Nat := 136
def KEY_ENTER : Nat := 13
def KEY_ESC : Nat := 27

/-! ## UpdateRenderLine -/

/-- First loop of UpdateRenderLine: the number of tab bytes among the first `size` bytes. -/
def tabCount (data : List Nat) (size : Nat) : Nat :=
  (data.take size).foldl (fun n c => if c = TAB then n + 1 else n) 0

/-- The loop `while(index % TAB_WIDTH != 0) RenderData[index++] = ' '`.
The state is `index` and the bytes written so far (`RenderData[0..index)`).
The first argument bounds the number of iterations; `TAB_WIDTH` of them are
always enough (see `padToTabStop_stop`). -/
def padToTabStop : Nat → Nat → List Nat → Nat × List Nat
  | 0, index, out => (index, out)
  | fuel + 1, index, out =>
    if index % TAB_WIDTH ≠ 0 then padToTabStop fuel (index + 1) (out ++ [SPACE])
    else (index, out)

/-- One iteration of the second loop of UpdateRenderLine on the byte `c`. -/
def renderStep (st : Nat × List Nat) (c : Nat) : Nat × List Nat :=
  if c = TAB then padToTabStop TAB_WIDTH (st.1 + 1) (st.2 ++ [SPACE])
  else (st.1 + 1, st.2 ++ [c])

/-- Second loop of UpdateRenderLine, from `index = 0` over `Data[0..Size)`. -/
def renderLoop (data : List Nat) (size : Nat) : Nat × List Nat :=
  (data.take size).foldl renderStep (0, [])

/-- The function `UpdateRenderLine`: rebuilds RenderData and RenderSize from Data and Size. -/
def UpdateRenderLine (line : Line_Data) : Line_Data :=
  { line with
    RenderSize := (renderLoop line.Data line.Size).1
    RenderData := (renderLoop line.Data line.Size).2 }

/-! ## Line operations -/

/-- The function `InsertCharacterInLine`.  The memmove shifts the `Size - at` content
bytes from `at` on (and the terminator) one place up; then the byte is stored at `at`. -/
def InsertCharacterInLine (line : Line_Data) (at_ : Nat) (character : Nat) : Line_Data :=
  let at_ := if at_ > line.Size then line.Size else at_
  UpdateRenderLine
    { line with
      Data := line.Data.take at_ ++ [character] ++ (line.Data.drop at_).take (line.Size - at_)
      Size := line.Size + 1 }

/-- The function `DeleteCharacterInLine`.  The memmove shifts the `Size - at - 1` content
bytes after `at` (and the terminator) one place down. -/
def DeleteCharacterInLine (line : Line_Data) (at_ : Nat) : Line_Data :=
  if at_ ≥ line.Size then line
  else
    UpdateRenderLine
      { line with
        Data := line.Data.take at_ ++ (line.Data.drop (at_ + 1)).take (line.Size - at_ - 1)
        Size := line.Size - 1 }

/-- The function `InsertLine`.  `data` and `length` are the pointer and length arguments:
the new line copies the first `length` bytes of `data`.  The realloc keeps the `LineCount`
elements, the memmove shifts the `LineCount - at` elements from `at` on one place up. -/
def InsertLine (editor : Term_Editor) (at_ : Nat) (data : List Nat) (length : Nat) :
    Term_Editor :=
  if at_ > editor.LineCount then editor
  else
    let line := UpdateRenderLine
      { Size := length, Data := data.take length, RenderSize := 0, RenderData := [] }
    { editor with
      Lines := editor.Lines.take at_ ++ [line]
        ++ (editor.Lines.drop at_).take (editor.LineCount - at_)
      LineCount := editor.LineCount + 1
      Dirty := true }

/-- The function `InsertCharacter`.  `none`: the line at the cursor row is outside `Lines`. -/
def InsertCharacter (editor : Term_Editor) (character : Nat) : Option Term_Editor :=
  let editor :=
    if editor.CursorPos.y = editor.LineCount then InsertLine editor editor.LineCount [] 0
    else editor
  match editor.Lines[editor.CursorPos.y]? with
  | none => none
  | some line =>
    some { editor with
      Lines := editor.Lines.set editor.CursorPos.y
        (InsertCharacterInLine line editor.CursorPos.x character)
      Dirty := true
      CursorPos := { editor.CursorPos with x := editor.CursorPos.x + 1 } }

/-- The two calls of free in DeleteLine: both buffers of the line are released, so
no byte of them may be read any more; the fields Size and RenderSize are not written. -/
def freeLine (line : Line_Data) : Line_Data :=
  { line with Data := [], RenderData := [] }

/-- The function `DeleteLine`.  The bound, the length of the memmove and the decrement all
use `RowCount`, as the source does; `LineCount` is not written.  The memmove copies the
elements `[at+1, RowCount)` to `[at, RowCount-1)`; the element at `RowCount-1` and those
after it stay in place.  `none`: `RowCount` exceeds the allocated elements, so the line
read or the range moved leaves the array. -/
def DeleteLine (editor : Term_Editor) (at_ : Nat) : Option Term_Editor :=
  if at_ ≥ editor.RowCount then some editor
  else if editor.RowCount > editor.Lines.length then none
  else
    let lines := editor.Lines.modify freeLine at_
    some { editor with
      Lines := lines.take at_ ++ (lines.drop (at_ + 1)).take (editor.RowCount - at_ - 1)
        ++ lines.drop (editor.RowCount - 1)
      RowCount := editor.RowCount - 1
      Dirty := true }

/-- The function `DeleteCharacter` (Backspace at the cursor).  The first test compares the
cursor row with `RowCount`, as the source does. -/
def DeleteCharacter (editor : Term_Editor) : Option Term_Editor :=
  if editor.CursorPos.y = editor.RowCount then some editor
  else if editor.CursorPos.x = 0 ∧ editor.CursorPos.y = 0 then some editor
  else if editor.CursorPos.x > 0 then
    match editor.Lines[editor.CursorPos.y]? with
    | none => none
    | some line =>
      some { editor with
        Lines := editor.Lines.set editor.CursorPos.y
          (DeleteCharacterInLine line (editor.CursorPos.x - 1))
        CursorPos := { editor.CursorPos with x := editor.CursorPos.x - 1 }
        Dirty := true }
  else
    match editor.Lines[editor.CursorPos.y - 1]?, editor.Lines[editor.CursorPos.y]? with
    | some lineAbove, some line =>
      let joined := UpdateRenderLine
        { lineAbove with
          Data := lineAbove.Data.take lineAbove.Size ++ line.Data.take line.Size
          Size := lineAbove.Size + line.Size }
      let editor1 : Term_Editor :=
        { editor with
          CursorPos := { editor.CursorPos with x := lineAbove.Size }
          Lines := editor.Lines.set (editor.CursorPos.y - 1) joined
          Dirty := true }
      match DeleteLine editor1 editor1.CursorPos.y with
      | none => none
      | some editor2 =>
        some { editor2 with CursorPos := { editor2.CursorPos with y := editor2.CursorPos.y - 1 } }
    | _, _ => none

/-! ## ProcessKeyInput -/

/-- The function `SetStatusMessage`: the formatted text, cut to the 79 bytes that fit the
80-byte buffer.  The time stamp is not modelled. -/
def SetStatusMessage (editor : Term_Editor) (text : String) : Term_Editor :=
  { editor with StatusMessage := text.take 79 }

/-- The read `Lines[row].Size`; `none` when `row` is outside `Lines`. -/
def readSize (editor : Term_Editor) (row : Nat) : Option Nat :=
  match editor.Lines[row]? with
  | none => none
  | some line => some line.Size

/-- The end of ProcessKeyInput, run after the switch: the cursor column is snapped to the
size of the line at the cursor row, and `quitTimes` is reset. -/
def snapCursor (editor : Term_Editor) : Option Term_Editor :=
  match readSize editor editor.CursorPos.y with
  | none => none
  | some size =>
    let pos := if editor.CursorPos.x > size then { editor.CursorPos with x := size }
      else editor.CursorPos
    some { editor with CursorPos := pos, quitTimes := QUIT_TIMES }

/-- The loop `while(times--)` of the Page Up / Page Down case: `times` calls of `step`. -/
def repeatKey (step : Term_Editor → Option Term_Editor) : Nat → Term_Editor → Option Term_Editor
  | 0, editor => some editor
  | times + 1, editor =>
    match step editor with
    | none => none
    | some editor1 => repeatKey step times editor1

/-- The Enter case of ProcessKeyInput (the block marked editorInsertNewLine). -/
def insertNewLine (editor : Term_Editor) : Option Term_Editor :=
  let moved (e : Term_Editor) : Term_Editor :=
    { e with CursorPos := { x := 0, y := e.CursorPos.y + 1 } }
  if editor.CursorPos.x = 0 then
    some (moved (InsertLine editor editor.CursorPos.y [] 0))
  else
    match editor.Lines[editor.CursorPos.y]? with
    | none => none
    | some line =>
      if editor.CursorPos.x > line.Size then none
      else
        let editor1 := InsertLine editor (editor.CursorPos.y + 1)
          (line.Data.drop editor.CursorPos.x) (line.Size - editor.CursorPos.x)
        match editor1.Lines[editor1.CursorPos.y]? with
        | none => none
        | some line1 =>
          let cut := UpdateRenderLine
            { line1 with Size := editor1.CursorPos.x, Data := line1.Data.take editor1.CursorPos.x }
          some (moved { editor1 with Lines := editor1.Lines.set editor1.CursorPos.y cut })

/-- The switch of ProcessKeyInput for every key but Quit.  `self` is the recursive call made
by the Page Up / Page Down case, `save` the effect of SaveFile (terminal and file I/O)
on the state. -/
def keySwitch (self : Term_Editor → Nat → Option Term_Editor)
    (save : Term_Editor → Term_Editor) (editor : Term_Editor) (character : Nat) :
    Option Term_Editor :=
  if character = KeyType_Up then
    some (if editor.CursorPos.y > 0 then
      { editor with CursorPos := { editor.CursorPos with y := editor.CursorPos.y - 1 } }
      else editor)
  else if character = KeyType_Down then
    some (if editor.CursorPos.y < subz editor.LineCount 1 then
      { editor with CursorPos := { editor.CursorPos with y := editor.CursorPos.y + 1 } }
      else editor)
  else if character = KeyType_Left then
    if editor.CursorPos.x > 0 then
      some { editor with CursorPos := { editor.CursorPos with x := editor.CursorPos.x - 1 } }
    else if editor.CursorPos.y > 0 then
      match readSize editor (editor.CursorPos.y - 1) with
      | none => none
      | some size => some { editor with CursorPos := { x := size, y := editor.CursorPos.y - 1 } }
    else some editor
  else if character = KeyType_Right then
    match readSize editor editor.CursorPos.y with
    | none => none
    | some size =>
      if editor.CursorPos.x < size then
        some { editor with CursorPos := { editor.CursorPos with x := editor.CursorPos.x + 1 } }
      else if editor.CursorPos.y < subz editor.LineCount 1 then
        some { editor with CursorPos := { x := 0, y := editor.CursorPos.y + 1 } }
      else some editor
  else if character = KeyType_PageDown ∨ character = KeyType_PageUp then
    let editor1 : Term_Editor :=
      if character = KeyType_PageUp then
        { editor with CursorPos := { editor.CursorPos with y := editor.Offset.y } }
      else
        let y := subz (editor.Offset.y + editor.RowCount) 1
        let y := if y > subz editor.LineCount 1 then subz editor.LineCount 1 else y
        { editor with CursorPos := { editor.CursorPos with y := y } }
    repeatKey
      (fun e => self e (if character = KeyType_PageUp then KeyType_Up else KeyType_Down))
      editor.RowCount editor1
  else if character = KEY_ENTER then insertNewLine editor
  else if character = KEY_ESC then some editor
  else if character = CTRL_KEY 104 then some editor
  else if character = CTRL_KEY 108 then some editor
  else if character = CTRL_KEY 115 then some (save editor)
  else if character = KeyType_Del ∨ character = KeyType_Backspace then
    DeleteCharacter
      (if character = KeyType_Del then
        { editor with CursorPos := { editor.CursorPos with x := editor.CursorPos.x + 1 } }
      else editor)
  else if character = KeyType_Home then
    some { editor with CursorPos := { editor.CursorPos with x := 0 } }
  else if character = KeyType_End then
    match readSize editor editor.CursorPos.y with
    | none => none
    | some size => some { editor with CursorPos := { editor.CursorPos with x := size } }
  else InsertCharacter editor character

/-- The body of ProcessKeyInput: the Quit case, which returns early while the document
is dirty and `quitTimes` is positive, then the switch, the column snap and the reset. -/
def ProcessKeyInputBody (self : Term_Editor → Nat → Option Term_Editor)
    (save : Term_Editor → Term_Editor) (editor : Term_Editor) (character : Nat) :
    Option Term_Editor :=
  if character = CTRL_KEY 113 then
    if editor.Dirty = true ∧ editor.quitTimes > 0 then
      some { SetStatusMessage editor
          ("WARNING!! File has unsaved changes. Press Ctrl-Q "
            ++ toString editor.quitTimes ++ " more time to quit.") with
        quitTimes := editor.quitTimes - 1 }
    else snapCursor { editor with GlobalRunning := false }
  else
    match keySwitch self save editor character with
    | none => none
    | some editor1 => snapCursor editor1

/-- The function `ProcessKeyInput`.  Its recursion is one level deep: the Page case calls
it with KeyType_Up or KeyType_Down only, and those cases make no call. -/
def ProcessKeyInput (save : Term_Editor → Term_Editor) (editor : Term_Editor)
    (character : Nat) : Option Term_Editor :=
  ProcessKeyInputBody (ProcessKeyInputBody (fun _ _ => none) save) save editor character

/-! ## The scroll step of UpdateScreen -/

/-- The walk of the block marked CxToRx over the bytes before the cursor column. -/
def walkColumns (bytes : List Nat) : Nat :=
  bytes.foldl
    (fun rx c => (if c = TAB then rx + ((TAB_WIDTH - 1) - rx % TAB_WIDTH) else rx) + 1) 0

/-- The block marked CxToRx: the value of RenderCursorX.  No byte is read when the cursor
column is 0; `none`: a byte outside the line or a line outside `Lines` is read. -/
def CxToRx (editor : Term_Editor) : Option Nat :=
  if editor.CursorPos.x = 0 then some 0
  else
    match editor.Lines[editor.CursorPos.y]? with
    | none => none
    | some line =>
      if editor.CursorPos.x ≤ line.Data.length then
        some (walkColumns (line.Data.take editor.CursorPos.x))
      else none

/-- The block marked Scroll of UpdateScreen: RenderCursorX, then the four tests
Up, Down, Left, Right in the order of the source. -/
def UpdateScreen_Scroll (editor : Term_Editor) : Option Term_Editor :=
  match CxToRx editor with
  | none => none
  | some rx =>
    let offY1 := if editor.CursorPos.y < editor.Offset.y then editor.CursorPos.y
      else editor.Offset.y
    let offY2 := if editor.CursorPos.y ≥ offY1 + editor.RowCount then
      subz editor.CursorPos.y editor.RowCount + 2 else offY1
    let offX1 := if rx < editor.Offset.x then rx else editor.Offset.x
    let offX2 := if editor.CursorPos.x ≥ offX1 + editor.ColumnCount then
      subz rx editor.ColumnCount + 1 else offX1
    some { editor with RenderCursorX := rx, Offset := { x := offX2, y := offY2 } }

/-! ## SaveFile and LoadFile -/

/-- The buffer `data` that SaveFile writes to the file: for each of the `LineCount` lines
its `Size` raw bytes followed by a newline byte. -/
def SaveFile_data (editor : Term_Editor) : List Nat :=
  (editor.Lines.take editor.LineCount).foldl
    (fun buf line => buf ++ line.Data.take line.Size ++ [NEWLINE]) []

/-- The library function getline on the unread rest of a file: the next physical line,
its newline byte included when there is one, and what is left; `none` at end of file. -/
def getline : List Nat → Option (List Nat × List Nat)
  | [] => none
  | c :: cs =>
    if c = NEWLINE then some ([c], cs)
    else
      match getline cs with
      | none => some ([c], [])
      | some (line, rest) => some (c :: line, rest)

/-- The inner loop of LoadFile: `lineLen` is decremented while the last counted byte
is a newline or a carriage return. -/
def stripEol (text : List Nat) : Nat → Nat
  | 0 => 0
  | lineLen + 1 =>
    if text[lineLen]? = some NEWLINE ∨ text[lineLen]? = some CR then stripEol text lineLen
    else lineLen + 1

/-- The reading loop of LoadFile.  Each call of getline takes at least one byte, so
as many iterations as the file has bytes reach the end of the file. -/
def loadLoop : Nat → List Nat → Term_Editor → Term_Editor
  | 0, _, editor => editor
  | fuel + 1, file, editor =>
    match getline file with
    | none => editor
    | some (line, rest) =>
      loadLoop fuel rest (InsertLine editor editor.LineCount line (stripEol line line.length))

/-- The function `LoadFile`; `contents` is what fopen finds: `none` when the file cannot
be opened, else its bytes. -/
def LoadFile (editor : Term_Editor) (filename : String) (contents : Option (List Nat)) :
    Bool × Term_Editor :=
  match contents with
  | none => (false, editor)
  | some file =>
    (true,
      { loadLoop file.length file { editor with Filename := some filename } with
        Dirty := false })

/-- The editor of main before any file is loaded: every field zero, `quitTimes` and
`GlobalRunning` at their initial values, and the viewport size given. -/
def initialEditor (rows columns : Nat) : Term_Editor :=
  { Filename := none, StatusMessage := "", Dirty := false
    RowCount := rows, ColumnCount := columns
    CursorPos := { x := 0, y := 0 }, RenderCursorX := 0, Offset := { x := 0, y := 0 }
    LineCount := 0, Lines := [], quitTimes := QUIT_TIMES, GlobalRunning := true }

/-! ## Well-formed states -/

/-- A line whose Size field is the number of its raw bytes. -/
def Line_Data.wf (line : Line_Data) : Prop := line.Size = line.Data.length

/-- A line whose render cache is the one UpdateRenderLine builds from its raw bytes. -/
def Line_Data.renderOk (line : Line_Data) : Prop :=
  line.RenderData = (renderLoop line.Data line.Size).2 ∧
    line.RenderSize = (renderLoop line.Data line.Size).1

/-- A state whose `Lines` array has `LineCount` elements, each with a consistent Size. -/
def Term_Editor.wf (editor : Term_Editor) : Prop :=
  editor.Lines.length = editor.LineCount ∧ ∀ line ∈ editor.Lines, line.wf

instance (line : Line_Data) : Decidable line.wf := by
  unfold Line_Data.wf; infer_instance

instance (line : Line_Data) : Decidable line.renderOk := by
  unfold Line_Data.renderOk; infer_instance

instance (editor : Term_Editor) : Decidable editor.wf := by
  unfold Term_Editor.wf; infer_instance

/-- The raw bytes of a line. -/
def Line_Data.raw (line : Line_Data) : List Nat := line.Data.take line.Size

/-- The tab expansion as the specification words it, started at column `col`: a tab byte
gives `8 - col % 8` space bytes, any other byte is kept. -/
def expandFrom : Nat → List Nat → List Nat
  | _, [] => []
  | col, c :: cs =>
    if c = TAB then
      List.replicate (TAB_WIDTH - col % TAB_WIDTH) SPACE
        ++ expandFrom (col + (TAB_WIDTH - col % TAB_WIDTH)) cs
    else c :: expandFrom (col + 1) cs

/-! ## Concrete states used by the examples -/

/-- The line InsertLine builds from the bytes `bytes`. -/
def lineOf (bytes : List Nat) : Line_Data :=
  UpdateRenderLine { Size := bytes.length, Data := bytes, RenderSize := 0, RenderData := [] }

/-- The editor of main with a viewport of `rows` by `columns`, holding the lines `text`
and the cursor at column `x` of row `y`. -/
def editorOf (rows columns : Nat) (text : List (List Nat)) (x y : Nat) : Term_Editor :=
  { initialEditor rows columns with
    Lines := text.map lineOf, LineCount := text.length, CursorPos := { x := x, y := y } }

/-- The bytes before the cursor column can be read: the cursor row is a line of `Lines`
and the column is at most the number of its bytes, or the column is 0. -/
def cursorReadable (editor : Term_Editor) : Prop :=
  match editor.Lines[editor.CursorPos.y]? with
  | some line => editor.CursorPos.x ≤ line.Data.length
  | none => editor.CursorPos.x = 0

/-- The cursor invariant: the cursor row is at most `LineCount`, and the cursor column is
at most the Size of the line at the cursor row, or 0 when that row is not a line. -/
def cursorInv (editor : Term_Editor) : Prop :=
  editor.CursorPos.y ≤ editor.LineCount ∧
    match editor.Lines[editor.CursorPos.y]? with
    | some line => editor.CursorPos.x ≤ line.Size
    | none => editor.CursorPos.x = 0

instance (editor : Term_Editor) : Decidable (cursorReadable editor) := by
  unfold cursorReadable; split <;> infer_instance

instance (editor : Term_Editor) : Decidable (cursorInv editor) := by
  unfold cursorInv
  exact @instDecidableAnd _ _ _ (by split <;> infer_instance)

/-- The serialisation as the specification words it: each line's raw bytes followed by a
newline byte, in order. -/
def serialize : List (List Nat) → List Nat
  | [] => []
  | bytes :: rest => bytes ++ NEWLINE :: serialize rest

/-- A file name for the examples. -/
def sampleName : String := "notes.txt"

/-! ## Keys of the default case and the first Quit press -/

/-- The keys that fall to the default case of the switch of ProcessKeyInput: every byte
that is not the code of one of its case labels. -/
def isDefaultKey (character : Nat) : Prop :=
  character ≠ CTRL_KEY 113 ∧ character ≠ KeyType_Up ∧ character ≠ KeyType_Down ∧
  character ≠ KeyType_Left ∧ character ≠ KeyType_Right ∧ character ≠ KeyType_PageDown ∧
  character ≠ KeyType_PageUp ∧ character ≠ KEY_ENTER ∧ character ≠ KEY_ESC ∧
  character ≠ CTRL_KEY 104 ∧ character ≠ CTRL_KEY 108 ∧ character ≠ CTRL_KEY 115 ∧
  character ≠ KeyType_Del ∧ character ≠ KeyType_Backspace ∧ character ≠ KeyType_Home ∧
  character ≠ KeyType_End

instance (character : Nat) : Decidable (isDefaultKey character) := by
  unfold isDefaultKey; infer_instance

/-- The text of the warning that the Quit case formats with `quitTimes`. -/
def quitWarningText (quitTimes : Int) : String :=
  "WARNING!! File has unsaved changes. Press Ctrl-Q "
    ++ toString quitTimes ++ " more time to quit."

/-- The state the Quit case returns while the document is dirty and `quitTimes` is
positive: the warning is set, `quitTimes` is decremented, nothing else is written. -/
def quitWarned (editor : Term_Editor) : Term_Editor :=
  { SetStatusMessage editor (quitWarningText editor.quitTimes) with
    quitTimes := editor.quitTimes - 1 }

/-! ## The text rows and the status bar of UpdateScreen -/

/-- The bytes of an ASCII text. -/
def bytesOf (text : String) : List Nat := text.toList.map Char.toNat

/-- The byte `'~'`. -/
def TILDE : Nat := 126

/-- The escape byte `'\x1b'`. -/
def ESC : Nat := 27

/-- The constant `TERMINAL_VERSION`. -/
def TERMINAL_VERSION : String := "0.0.1"

/-- The text snprintf writes to `msg` for the intro message (32 bytes, within the 64 of
the buffer). -/
def introMessage : String := "Terminal Editor - Version: " ++ TERMINAL_VERSION

/-- The loop `while(padding--) AppendToBuffer(buffer, " ", 1)` on the int `padding`: from
a count that is not negative it appends that many spaces.  From a negative count the
decrement never meets 0: the loop appends a space at each of its 2^31 - 1 or so iterations
until the decrement overflows int, which is undefined behaviour (`none`). -/
def whilePadding (padding : Int) : Option (List Nat) :=
  if 0 ≤ padding then some (List.replicate padding.toNat SPACE) else none

/-- The int `len` of the intro-message branch: the length of the message, cut to
ColumnCount. -/
def introLen (editor : Term_Editor) : Nat :=
  if introMessage.length > editor.ColumnCount then editor.ColumnCount
  else introMessage.length

/-- The int `padding` of the intro-message branch, (ColumnCount - len) / 2. -/
def introPadding (editor : Term_Editor) : Int :=
  ((editor.ColumnCount - introLen editor) / 2 : Nat)

/-- The intro-message branch of the row loop of UpdateScreen: the bytes it appends.
`if(padding--)` tests `padding` against 0 and decrements it in either case; the loop
`while(padding--)` then starts from `padding - 1`. -/
def introRow (editor : Term_Editor) : Option (List Nat) :=
  let tilde := if introPadding editor ≠ 0 then [TILDE] else []
  match whilePadding (introPadding editor - 1) with
  | none => none
  | some spaces => some (tilde ++ spaces ++ (bytesOf introMessage).take (introLen editor))

/-- The line branch of the row loop of UpdateScreen: the slice of RenderData from
Offset.x, of `len` bytes, where the int `len` is RenderSize - Offset.x, raised to 0 and cut
to ColumnCount (sizes stay below 2^31).  `none`: the slice leaves the render buffer. -/
def lineRow (editor : Term_Editor) (current : Line_Data) : Option (List Nat) :=
  let len : Int := (current.RenderSize : Int) - (editor.Offset.x : Int)
  let len : Int := if len < 0 then 0 else len
  let len : Nat := if len.toNat > editor.ColumnCount then editor.ColumnCount else len.toNat
  if len = 0 then some []
  else if editor.Offset.x + len ≤ current.RenderData.length then
    some ((current.RenderData.drop editor.Offset.x).take len)
  else none

/-- One iteration of the row loop of UpdateScreen, for the screen row `y`: the bytes of
the row, then the marker that erases the rest of the line, then "\r\n". -/
def drawRow (editor : Term_Editor) (y : Nat) : Option (List Nat) :=
  let offsetY := y + editor.Offset.y
  let content : Option (List Nat) :=
    if offsetY < editor.LineCount then
      match editor.Lines[offsetY]? with
      | none => none
      | some current => lineRow editor current
    else if editor.LineCount = 0 ∧ y = editor.RowCount / 3 then introRow editor
    else some [TILDE]
  match content with
  | none => none
  | some bytes => some (bytes ++ [ESC, 91, 75] ++ [CR, NEWLINE])

/-- The row loop of UpdateScreen over the rows `y`, `y + 1`, ... (`count` of them). -/
def drawRowsFrom (editor : Term_Editor) : Nat → Nat → Option (List Nat)
  | _, 0 => some []
  | y, count + 1 =>
    match drawRow editor y, drawRowsFrom editor (y + 1) count with
    | some row, some rest => some (row ++ rest)
    | _, _ => none

/-- The block of UpdateScreen that draws the `RowCount` text rows. -/
def UpdateScreen_Rows (editor : Term_Editor) : Option (List Nat) :=
  drawRowsFrom editor 0 editor.RowCount

/-- The text snprintf writes to `leftStatus`; at most 61 bytes, within the 80 of the
buffer.  The count printed is `RowCount`, as in the source. -/
def leftStatus (editor : Term_Editor) : String :=
  " " ++ (editor.Filename.getD "[No Name]").take 20 ++ " - " ++ toString editor.RowCount
    ++ " Lines " ++ (if editor.Dirty = true then "(modified)" else "")

/-- The text snprintf writes to `rightStatus`.  The count printed is `RowCount`, as in
the source. -/
def rightStatus (editor : Term_Editor) : String :=
  toString (editor.CursorPos.y + 1) ++ "/" ++ toString editor.RowCount ++ " "

/-- The loop `while(leftLen < ColumnCount)` of the status bar; `remaining` is
ColumnCount - leftLen.  The right text is appended when it fits the remaining columns
exactly, and ends the loop; else a space is appended. -/
def statusFill (right : List Nat) : Nat → List Nat
  | 0 => []
  | remaining + 1 =>
    if remaining + 1 = right.length then right
    else SPACE :: statusFill right remaining

/-- The block of UpdateScreen that draws the status bar. -/
def UpdateScreen_StatusBar (editor : Term_Editor) : List Nat :=
  let leftLen := if (leftStatus editor).length > editor.ColumnCount then editor.ColumnCount
    else (leftStatus editor).length
  [ESC, 91, 55, 109] ++ (bytesOf (leftStatus editor)).take leftLen
    ++ statusFill (bytesOf (rightStatus editor)) (editor.ColumnCount - leftLen)
    ++ [ESC, 91, 109] ++ [CR, NEWLINE]

/-! ## The Page keys -/

/-- The Arrow-Up case of the switch of ProcessKeyInput. -/
def arrowUp (editor : Term_Editor) : Term_Editor :=
  if editor.CursorPos.y > 0 then
    { editor with CursorPos := { editor.CursorPos with y := editor.CursorPos.y - 1 } }
  else editor

/-- The Arrow-Down case of the switch of ProcessKeyInput. -/
def arrowDown (editor : Term_Editor) : Term_Editor :=
  if editor.CursorPos.y < subz editor.LineCount 1 then
    { editor with CursorPos := { editor.CursorPos with y := editor.CursorPos.y + 1 } }
  else editor

/-- The state the Page Up case starts its loop from: the cursor on the top row of the
viewport. -/
def pageUpStart (editor : Term_Editor) : Term_Editor :=
  { editor with CursorPos := { editor.CursorPos with y := editor.Offset.y } }

/-- The state the Page Down case starts its loop from: the cursor on the bottom row of the
viewport, or on the last line when that row is beyond it. -/
def pageDownStart (editor : Term_Editor) : Term_Editor :=
  { editor with
    CursorPos := { editor.CursorPos with
      y := if subz (editor.Offset.y + editor.RowCount) 1 > subz editor.LineCount 1 then
          subz editor.LineCount 1
        else subz (editor.Offset.y + editor.RowCount) 1 } }

/-! ## Theorems: the render cache -/

theorem padToTabStop_eq (fuel index : Nat) (out : List Nat)
    (h : (TAB_WIDTH - index % TAB_WIDTH) % TAB_WIDTH ≤ fuel) :
    padToTabStop fuel index out =
      (index + (TAB_WIDTH - index % TAB_WIDTH) % TAB_WIDTH,
        out ++ List.replicate ((TAB_WIDTH - index % TAB_WIDTH) % TAB_WIDTH) SPACE) := by
  induction fuel generalizing index out with
  | zero =>
    simp only [TAB_WIDTH] at h ⊢
    have h0 : (8 - index % 8) % 8 = 0 := by omega
    simp [padToTabStop, h0]
  | succ fuel ih =>
    unfold padToTabStop
    simp only [TAB_WIDTH] at h ih ⊢
    by_cases hz : index % 8 = 0
    · have h0 : (8 - index % 8) % 8 = 0 := by omega
      simp [hz]
    · have h1 : (8 - index % 8) % 8 = (8 - (index + 1) % 8) % 8 + 1 := by omega
      rw [if_pos hz, ih (index + 1) (out ++ [SPACE]) (by omega), h1]
      simp [List.replicate_succ, Nat.add_assoc, Nat.add_comm 1]

/-- The inner loop with `TAB_WIDTH` iterations allowed always stops because its test fails. -/
theorem padToTabStop_stop (index : Nat) (out : List Nat) :
    (padToTabStop TAB_WIDTH index out).1 % TAB_WIDTH = 0 := by
  rw [padToTabStop_eq TAB_WIDTH index out (by simp only [TAB_WIDTH]; omega)]
  simp only [TAB_WIDTH]; omega

theorem renderStep_tab (index : Nat) (out : List Nat) :
    renderStep (index, out) TAB =
      (index + (TAB_WIDTH - index % TAB_WIDTH),
        out ++ List.replicate (TAB_WIDTH - index % TAB_WIDTH) SPACE) := by
  unfold renderStep
  rw [if_pos rfl, padToTabStop_eq _ _ _ (by simp only [TAB_WIDTH]; omega)]
  simp only [TAB_WIDTH]
  have h1 : 8 - index % 8 = (8 - (index + 1) % 8) % 8 + 1 := by omega
  rw [h1]
  simp [List.replicate_succ, Nat.add_assoc]
  omega

theorem foldl_renderStep (cs : List Nat) (index : Nat) (out : List Nat) :
    cs.foldl renderStep (index, out) =
      (index + (expandFrom index cs).length, out ++ expandFrom index cs) := by
  induction cs generalizing index out with
  | nil => simp [expandFrom]
  | cons c cs ih =>
    rw [List.foldl_cons]
    by_cases hc : c = TAB
    · subst hc
      rw [renderStep_tab, ih]
      simp [expandFrom, Nat.add_assoc]
    · have hs : renderStep (index, out) c = (index + 1, out ++ [c]) := by
        simp [renderStep, hc]
      rw [hs, ih]
      simp [expandFrom, hc, Nat.add_assoc, Nat.add_comm 1]

theorem renderLoop_eq (data : List Nat) (size : Nat) :
    renderLoop data size =
      ((expandFrom 0 (data.take size)).length, expandFrom 0 (data.take size)) := by
  simp [renderLoop, foldl_renderStep]

theorem expandFrom_append (a b : List Nat) (col : Nat) :
    expandFrom col (a ++ b) =
      expandFrom col a ++ expandFrom (col + (expandFrom col a).length) b := by
  induction a generalizing col with
  | nil => simp [expandFrom]
  | cons c cs ih =>
    by_cases hc : c = TAB
    · simp [expandFrom, hc, ih, Nat.add_assoc]
    · simp [expandFrom, hc, ih, Nat.add_assoc, Nat.add_comm 1]

theorem expandFrom_length_ge (cs : List Nat) (col : Nat) :
    cs.length ≤ (expandFrom col cs).length := by
  induction cs generalizing col with
  | nil => simp [expandFrom]
  | cons c cs ih =>
    by_cases hc : c = TAB
    · have := ih (col + (TAB_WIDTH - col % TAB_WIDTH))
      simp only [expandFrom, hc, if_true, List.length_append, List.length_replicate,
        List.length_cons, TAB_WIDTH] at this ⊢
      omega
    · have := ih (col + 1)
      simp only [expandFrom, hc, if_false, List.length_cons] at this ⊢
      omega

theorem expandFrom_length_le (cs : List Nat) (col : Nat) :
    (expandFrom col cs).length ≤ cs.length + 7 * cs.count TAB := by
  induction cs generalizing col with
  | nil => simp [expandFrom]
  | cons c cs ih =>
    by_cases hc : c = TAB
    · have := ih (col + (TAB_WIDTH - col % TAB_WIDTH))
      simp only [expandFrom, hc, if_true, List.length_append, List.length_replicate,
        List.length_cons, TAB_WIDTH, List.count_cons_self] at this ⊢
      omega
    · have := ih (col + 1)
      have hne : (c == TAB) = false := by simpa using hc
      simp only [expandFrom, hc, if_false, List.length_cons, List.count_cons, hne] at this ⊢
      simp at this ⊢
      omega

theorem tabCount_eq (data : List Nat) (size : Nat) :
    tabCount data size = (data.take size).count TAB := by
  unfold tabCount
  have key : ∀ (cs : List Nat) (n : Nat),
      cs.foldl (fun n c => if c = TAB then n + 1 else n) n = n + cs.count TAB := by
    intro cs
    induction cs with
    | nil => simp
    | cons c cs ih =>
      intro n
      by_cases hc : c = TAB
      · simp [hc, ih]; omega
      · have hne : (c == TAB) = false := by simpa using hc
        simp [hc, ih, List.count_cons, hne]
  simpa using key (data.take size) 0

/-- C1: UpdateRenderLine gives a render whose RenderSize is its length, lies between the
raw length and the raw length plus 7 for each tab byte (the count its first loop makes),
and every tab byte is expanded to a run of 1 to 8 spaces after which the render index is
a multiple of 8. -/
theorem C1_UpdateRenderLine_bounds (line : Line_Data) :
    (UpdateRenderLine line).RenderSize = (UpdateRenderLine line).RenderData.length ∧
    line.raw.length ≤ (UpdateRenderLine line).RenderSize ∧
    (UpdateRenderLine line).RenderSize
      ≤ line.raw.length + (TAB_WIDTH - 1) * tabCount line.Data line.Size ∧
    tabCount line.Data line.Size = line.raw.count TAB ∧
    ∀ i, line.raw[i]? = some TAB →
      ∃ n post, 1 ≤ n ∧ n ≤ TAB_WIDTH ∧
        (renderLoop line.raw (i + 1)).2 = (renderLoop line.raw i).2 ++ List.replicate n SPACE ∧
        (UpdateRenderLine line).RenderData = (renderLoop line.raw (i + 1)).2 ++ post ∧
        (renderLoop line.raw (i + 1)).2.length % TAB_WIDTH = 0 := by
  have hcount := tabCount_eq line.Data line.Size
  simp only [UpdateRenderLine, renderLoop_eq, Line_Data.raw] at *
  refine ⟨trivial, expandFrom_length_ge _ _, ?_, hcount, ?_⟩
  · rw [hcount]
    simpa [TAB_WIDTH] using expandFrom_length_le (line.Data.take line.Size) 0
  · intro i hi
    obtain ⟨hlt, hget⟩ := List.getElem?_eq_some.mp hi
    have htake : (line.Data.take line.Size).take (i + 1)
        = (line.Data.take line.Size).take i ++ [TAB] := by
      rw [List.take_succ, hi]; rfl
    refine ⟨TAB_WIDTH - (expandFrom 0 ((line.Data.take line.Size).take i)).length % TAB_WIDTH,
      expandFrom (0 + (expandFrom 0 ((line.Data.take line.Size).take (i + 1))).length)
        ((line.Data.take line.Size).drop (i + 1)), ?_, ?_, ?_, ?_, ?_⟩
    · simp only [TAB_WIDTH]; omega
    · simp only [TAB_WIDTH]; omega
    · rw [htake, expandFrom_append]
      simp [expandFrom]
    · rw [← expandFrom_append, List.take_append_drop]
    · rw [htake, expandFrom_append]
      simp only [expandFrom, if_true, List.append_nil, List.length_append,
        List.length_replicate, Nat.zero_add, TAB_WIDTH]
      omega

/-! ## Theorems: the scroll step -/

theorem CxToRx_of_readable (editor : Term_Editor) (h : cursorReadable editor) :
    ∃ rx, CxToRx editor = some rx := by
  unfold cursorReadable at h
  unfold CxToRx
  by_cases h0 : editor.CursorPos.x = 0
  · exact ⟨0, by simp [h0]⟩
  · cases hl : editor.Lines[editor.CursorPos.y]? with
    | none => rw [hl] at h; exact absurd h h0
    | some line =>
      rw [hl] at h
      have hx : editor.CursorPos.x ≤ line.Data.length := h
      exact ⟨walkColumns (line.Data.take editor.CursorPos.x), by simp [h0, hx]⟩

/-- C2, as amended: with at least two visible rows and the bytes before the cursor
column readable, the scroll step of UpdateScreen returns a state in which the cursor row lies in the window:
Offset.y <= CursorPos.y < Offset.y + RowCount. -/
theorem C2_scroll_vertical (editor : Term_Editor) (hR : 2 ≤ editor.RowCount)
    (hread : cursorReadable editor) :
    ∃ e, UpdateScreen_Scroll editor = some e ∧ e.CursorPos = editor.CursorPos ∧
      e.RowCount = editor.RowCount ∧
      e.Offset.y ≤ e.CursorPos.y ∧ e.CursorPos.y < e.Offset.y + e.RowCount := by
  obtain ⟨rx, hrx⟩ := CxToRx_of_readable editor hread
  simp only [UpdateScreen_Scroll, hrx]
  refine ⟨_, rfl, rfl, rfl, ?_, ?_⟩
  · simp only [subz]
    split_ifs <;> omega
  · simp only [subz]
    split_ifs <;> omega

theorem C2_scroll_vertical_witness :
    2 ≤ (editorOf 2 80 [[97], [98], [99]] 0 2).RowCount ∧
    cursorReadable (editorOf 2 80 [[97], [98], [99]] 0 2) ∧
    ∃ e, UpdateScreen_Scroll (editorOf 2 80 [[97], [98], [99]] 0 2) = some e ∧
      e.CursorPos = (editorOf 2 80 [[97], [98], [99]] 0 2).CursorPos ∧
      e.RowCount = (editorOf 2 80 [[97], [98], [99]] 0 2).RowCount ∧
      e.Offset.y ≤ e.CursorPos.y ∧ e.CursorPos.y < e.Offset.y + e.RowCount :=
  ⟨by decide, by decide,
    C2_scroll_vertical (editorOf 2 80 [[97], [98], [99]] 0 2) (by decide) (by decide)⟩

/-- C2 fails as stated with one visible row: with the cursor on row 1 and Offset.y = 0 the
scroll step sets Offset.y to 1 - 1 + 2 = 2, below the cursor row. -/
theorem C2_counterexample :
    0 < (editorOf 1 80 [[97], [98]] 0 1).RowCount ∧
    ∃ e, UpdateScreen_Scroll (editorOf 1 80 [[97], [98]] 0 1) = some e ∧
      e.CursorPos.y = 1 ∧ e.Offset.y = 2 ∧ ¬ (e.Offset.y ≤ e.CursorPos.y) :=
  ⟨by decide, _, rfl, rfl, rfl, by decide⟩

/-- C3 at a failing input: the line holds two tab bytes, the viewport has 10 columns, the
cursor is at raw column 2.  RenderCursorX is 16, but the test marked Right compares the
raw column 2 with Offset.x + ColumnCount = 10, so Offset.x stays 0 and the render column
is outside the window. -/
theorem C3_scroll_horizontal_fails :
    0 < (editorOf 5 10 [[9, 9]] 2 0).ColumnCount ∧
    ∃ e, UpdateScreen_Scroll (editorOf 5 10 [[9, 9]] 2 0) = some e ∧
      e.RenderCursorX = 16 ∧ e.Offset.x = 0 ∧ e.ColumnCount = 10 ∧
      ¬ (e.RenderCursorX < e.Offset.x + e.ColumnCount) :=
  ⟨by decide, _, rfl, rfl, rfl, rfl, by decide⟩

/-! ## Theorems: editing a line -/

theorem UpdateRenderLine_Data (line : Line_Data) : (UpdateRenderLine line).Data = line.Data := rfl

theorem UpdateRenderLine_Size (line : Line_Data) : (UpdateRenderLine line).Size = line.Size := rfl

theorem InsertCharacterInLine_Data (line : Line_Data) (col b : Nat) (hwf : line.wf)
    (hcol : col ≤ line.Size) :
    (InsertCharacterInLine line col b).Data = line.Data.take col ++ b :: line.Data.drop col ∧
      (InsertCharacterInLine line col b).Size = line.Size + 1 := by
  unfold Line_Data.wf at hwf
  have hnot : ¬ col > line.Size := by omega
  simp only [InsertCharacterInLine, if_neg hnot, UpdateRenderLine_Data, UpdateRenderLine_Size]
  refine ⟨?_, trivial⟩
  have h : (line.Data.drop col).take (line.Size - col) = line.Data.drop col :=
    List.take_of_length_le (by simp; omega)
  rw [h]
  simp

theorem InsertCharacterInLine_wf (line : Line_Data) (col b : Nat) (hwf : line.wf) :
    (InsertCharacterInLine line col b).wf := by
  unfold Line_Data.wf at hwf ⊢
  simp only [InsertCharacterInLine, UpdateRenderLine_Data, UpdateRenderLine_Size]
  split_ifs <;> simp <;> omega

theorem DeleteCharacterInLine_Data (line : Line_Data) (col : Nat) (hwf : line.wf)
    (hcol : col < line.Size) :
    (DeleteCharacterInLine line col).Data = line.Data.take col ++ line.Data.drop (col + 1) ∧
      (DeleteCharacterInLine line col).Size = line.Size - 1 := by
  unfold Line_Data.wf at hwf
  have hnot : ¬ col ≥ line.Size := by omega
  simp only [DeleteCharacterInLine, if_neg hnot, UpdateRenderLine_Data, UpdateRenderLine_Size]
  refine ⟨?_, trivial⟩
  have h : (line.Data.drop (col + 1)).take (line.Size - col - 1) = line.Data.drop (col + 1) :=
    List.take_of_length_le (by simp; omega)
  rw [h]

theorem DeleteCharacterInLine_wf (line : Line_Data) (col : Nat) (hwf : line.wf) :
    (DeleteCharacterInLine line col).wf := by
  unfold Line_Data.wf at hwf ⊢
  unfold DeleteCharacterInLine
  split_ifs with h
  · exact hwf
  · simp only [UpdateRenderLine_Data, UpdateRenderLine_Size]
    simp
    omega

/-- C4: on a line whose Size is the number of its raw bytes, InsertCharacterInLine at a
column col <= Size followed by DeleteCharacterInLine at col gives back the raw bytes and
the Size. -/
theorem C4_insert_delete_roundtrip (line : Line_Data) (col b : Nat) (hwf : line.wf)
    (hcol : col ≤ line.Size) :
    (DeleteCharacterInLine (InsertCharacterInLine line col b) col).Data = line.Data ∧
      (DeleteCharacterInLine (InsertCharacterInLine line col b) col).Size = line.Size := by
  obtain ⟨hd, hs⟩ := InsertCharacterInLine_Data line col b hwf hcol
  have hwf1 := InsertCharacterInLine_wf line col b hwf
  obtain ⟨hd2, hs2⟩ := DeleteCharacterInLine_Data (InsertCharacterInLine line col b) col hwf1
    (by omega)
  unfold Line_Data.wf at hwf
  refine ⟨?_, by omega⟩
  have hlen : (line.Data.take col).length = col := by
    rw [List.length_take]; omega
  have h1 : (line.Data.take col ++ b :: line.Data.drop col).take col = line.Data.take col := by
    rw [List.take_append_of_le_length (by omega), List.take_of_length_le (by omega)]
  have h2 : (line.Data.take col ++ b :: line.Data.drop col).drop (col + 1)
      = line.Data.drop col := by
    have hd : col + 1 = (line.Data.take col).length + 1 := by omega
    rw [hd, List.drop_append]
    rfl
  rw [hd2, hd, h1, h2, List.take_append_drop]

theorem C4_insert_delete_roundtrip_witness :
    (lineOf [97, 9, 98]).wf ∧ 1 ≤ (lineOf [97, 9, 98]).Size ∧
    (DeleteCharacterInLine (InsertCharacterInLine (lineOf [97, 9, 98]) 1 120) 1).Data
      = (lineOf [97, 9, 98]).Data ∧
    (DeleteCharacterInLine (InsertCharacterInLine (lineOf [97, 9, 98]) 1 120) 1).Size
      = (lineOf [97, 9, 98]).Size :=
  ⟨by decide, by decide,
    C4_insert_delete_roundtrip (lineOf [97, 9, 98]) 1 120 (by decide) (by decide)⟩

/-! ## Theorems: the line store -/

/-- C5 at a failing input: a viewport of 2 rows, the lines "x", "ab", "c", the cursor at
column 1 of row 1.  Enter splits row 1 and puts the cursor on row 2; Backspace then finds
the cursor row equal to RowCount, DeleteCharacter returns at once, and row 1 keeps the
single byte "a". -/
theorem C5_enter_backspace_fails (save : Term_Editor → Term_Editor) :
    ∃ e1 e2, ProcessKeyInput save (editorOf 2 80 [[120], [97, 98], [99]] 1 1) KEY_ENTER = some e1 ∧
      e1.CursorPos = { x := 0, y := 2 } ∧
      ProcessKeyInput save e1 KeyType_Backspace = some e2 ∧
      e2.Lines.map Line_Data.raw = [[120], [97], [98], [99]] ∧
      e2.CursorPos = { x := 0, y := 2 } :=
  ⟨_, _, rfl, rfl, rfl, rfl, rfl⟩

/-- C7 at a failing input: the empty document with the cursor at (0, 0) and the key
Arrow-Down.  LineCount - 1 wraps around, so the switch moves the cursor to row 1, past
LineCount = 0; the column snap that follows reads a line outside the (null) array. -/
theorem C7_cursor_invariant_fails (save : Term_Editor → Term_Editor) :
    cursorInv (initialEditor 22 80) ∧ (initialEditor 22 80).wf ∧
    (∃ e1, keySwitch (fun _ _ => none) save (initialEditor 22 80) KeyType_Down = some e1 ∧
      e1.CursorPos.y = 1 ∧ e1.LineCount = 0 ∧ ¬ cursorInv e1) ∧
    ProcessKeyInput save (initialEditor 22 80) KeyType_Down = none :=
  ⟨by decide, by decide, ⟨_, rfl, rfl, rfl, by decide⟩, rfl⟩

/-- C8 at a failing input: two lines with a correct render cache, a viewport of 2 rows.
DeleteLine at index 1 frees the buffers of line 1, moves nothing, and leaves LineCount
at 2: index 1 is still a line of the store, with RenderSize 2 and a released render
buffer.  The Backspace key with the cursor at (0, 1) reaches the same call and leaves the
same line behind. -/
theorem C8_render_invariant_fails (save : Term_Editor → Term_Editor) :
    (∀ line ∈ (editorOf 2 80 [[97, 98], [99, 100]] 0 1).Lines, line.renderOk) ∧
    (∃ e line, DeleteLine (editorOf 2 80 [[97, 98], [99, 100]] 0 1) 1 = some e ∧
      e.LineCount = 2 ∧ e.Lines[1]? = some line ∧
      line.RenderSize = 2 ∧ line.RenderData = [] ∧ ¬ line.renderOk) ∧
    ∃ e line, ProcessKeyInput save (editorOf 2 80 [[97, 98], [99, 100]] 0 1) KeyType_Backspace
        = some e ∧
      e.LineCount = 2 ∧ e.Lines[1]? = some line ∧
      line.RenderSize = 2 ∧ line.RenderData = [] ∧ ¬ line.renderOk :=
  ⟨by decide, ⟨_, _, rfl, rfl, rfl, rfl, rfl, by decide⟩,
    ⟨_, _, rfl, rfl, rfl, rfl, rfl, by decide⟩⟩

/-- C9 at two failing inputs.  With 3 lines and a viewport of 2 rows, DeleteLine at
index 2 changes nothing, though 2 < LineCount.  With 3 lines and a viewport of 3 rows,
DeleteLine at index 1 leaves LineCount at 3, with the last line twice in the store, and
decrements RowCount instead. -/
theorem C9_DeleteLine_fails :
    DeleteLine (editorOf 2 80 [[97], [98], [99]] 0 0) 2
      = some (editorOf 2 80 [[97], [98], [99]] 0 0) ∧
    (editorOf 2 80 [[97], [98], [99]] 0 0).LineCount = 3 ∧
    ∃ e, DeleteLine (editorOf 3 80 [[97], [98], [99]] 0 0) 1 = some e ∧
      e.LineCount = 3 ∧ e.Lines.map Line_Data.raw = [[97], [99], [99]] ∧ e.RowCount = 2 :=
  ⟨rfl, rfl, _, rfl, rfl, rfl, rfl⟩

/-- C10: InsertLine beyond LineCount changes nothing; at an index up to LineCount (in a
state whose array has LineCount elements) it puts the new line, with the given raw bytes
and its render built, between the lines before the index and the lines from the index on,
increments LineCount, sets Dirty, and writes no other field. -/
theorem C10_InsertLine (editor : Term_Editor) (index : Nat) (bytes : List Nat)
    (hlen : editor.Lines.length = editor.LineCount) :
    (index > editor.LineCount → InsertLine editor index bytes bytes.length = editor) ∧
    (index ≤ editor.LineCount →
      InsertLine editor index bytes bytes.length =
        { editor with
          Lines := editor.Lines.take index ++ [lineOf bytes] ++ editor.Lines.drop index
          LineCount := editor.LineCount + 1
          Dirty := true } ∧
      (lineOf bytes).Data = bytes ∧ (lineOf bytes).Size = bytes.length ∧
      (lineOf bytes).renderOk ∧
      (InsertLine editor index bytes bytes.length).Lines.length
        = (InsertLine editor index bytes bytes.length).LineCount) := by
  constructor
  · intro h
    simp [InsertLine, h]
  · intro h
    have hnot : ¬ index > editor.LineCount := by omega
    have htake : (editor.Lines.drop index).take (editor.LineCount - index)
        = editor.Lines.drop index :=
      List.take_of_length_le (by simp; omega)
    refine ⟨?_, rfl, rfl, ⟨rfl, rfl⟩, ?_⟩
    · simp only [InsertLine, if_neg hnot, htake, lineOf, List.take_length]
    · simp only [InsertLine, if_neg hnot, htake]
      simp
      omega

theorem C10_InsertLine_witness :
    (editorOf 5 80 [[97], [98]] 0 0).Lines.length = (editorOf 5 80 [[97], [98]] 0 0).LineCount ∧
    (InsertLine (editorOf 5 80 [[97], [98]] 0 0) 1 [9, 120] 2).Lines
      = [lineOf [97], lineOf [9, 120], lineOf [98]] ∧
    (InsertLine (editorOf 5 80 [[97], [98]] 0 0) 1 [9, 120] 2).LineCount = 3 ∧
    (InsertLine (editorOf 5 80 [[97], [98]] 0 0) 1 [9, 120] 2).Dirty = true ∧
    InsertLine (editorOf 5 80 [[97], [98]] 0 0) 3 [9, 120] 2 = editorOf 5 80 [[97], [98]] 0 0 :=
  ⟨rfl,
    congrArg Term_Editor.Lines
      ((C10_InsertLine (editorOf 5 80 [[97], [98]] 0 0) 1 [9, 120] rfl).2 (by decide)).1,
    congrArg Term_Editor.LineCount
      ((C10_InsertLine (editorOf 5 80 [[97], [98]] 0 0) 1 [9, 120] rfl).2 (by decide)).1,
    congrArg Term_Editor.Dirty
      ((C10_InsertLine (editorOf 5 80 [[97], [98]] 0 0) 1 [9, 120] rfl).2 (by decide)).1,
    (C10_InsertLine (editorOf 5 80 [[97], [98]] 0 0) 3 [9, 120] rfl).1 (by decide)⟩

/-! ## Theorems: SaveFile and LoadFile -/

theorem SaveFile_data_eq (editor : Term_Editor) :
    SaveFile_data editor = serialize ((editor.Lines.take editor.LineCount).map Line_Data.raw) := by
  unfold SaveFile_data
  have key : ∀ (ls : List Line_Data) (buf : List Nat),
      ls.foldl (fun buf line => buf ++ line.Data.take line.Size ++ [NEWLINE]) buf
        = buf ++ serialize (ls.map Line_Data.raw) := by
    intro ls
    induction ls with
    | nil => intro buf; simp [serialize]
    | cons l ls ih =>
      intro buf
      simp only [List.foldl_cons, List.map_cons, serialize, Line_Data.raw]
      rw [ih]
      simp [Line_Data.raw]
  simpa using key (editor.Lines.take editor.LineCount) []

theorem getline_line (bytes rest : List Nat) (h : NEWLINE ∉ bytes) :
    getline (bytes ++ NEWLINE :: rest) = some (bytes ++ [NEWLINE], rest) := by
  induction bytes with
  | nil => simp [getline]
  | cons c cs ih =>
    have hc : c ≠ NEWLINE := fun hc => h (by simp [hc])
    have hcs : NEWLINE ∉ cs := fun hcs => h (by simp [hcs])
    simp [getline, hc, ih hcs]

theorem stripEol_line (bytes : List Nat) (h : NEWLINE ∉ bytes)
    (hcr : bytes.getLast? ≠ some CR) :
    stripEol (bytes ++ [NEWLINE]) (bytes ++ [NEWLINE]).length = bytes.length := by
  have h1 : (bytes ++ [NEWLINE]).length = bytes.length + 1 := by simp
  rw [h1]
  unfold stripEol
  have hnl : (bytes ++ [NEWLINE])[bytes.length]? = some NEWLINE := by simp
  rw [if_pos (Or.inl hnl)]
  rcases List.eq_nil_or_concat bytes with hnil | ⟨cs, c, hcs⟩
  · subst hnil; rfl
  · rw [List.concat_eq_append] at hcs
    subst hcs
    have h2 : (cs ++ [c]).length = cs.length + 1 := by simp
    have hget : (cs ++ [c] ++ [NEWLINE])[cs.length]? = some c := by
      rw [List.append_assoc, List.getElem?_append_right (Nat.le_refl _)]
      simp
    have hc1 : c ≠ NEWLINE := fun hc => h (by simp [hc])
    have hc2 : c ≠ CR := fun hc => hcr (by simp [hc])
    rw [h2]
    unfold stripEol
    rw [hget]
    simp [hc1, hc2]

theorem serialize_length (text : List (List Nat)) : text.length ≤ (serialize text).length := by
  induction text with
  | nil => simp [serialize]
  | cons s rest ih => simp [serialize]; omega

theorem InsertLine_append (editor : Term_Editor) (bytes rest : List Nat)
    (hlen : editor.Lines.length = editor.LineCount) :
    InsertLine editor editor.LineCount (bytes ++ rest) bytes.length =
      { editor with
        Lines := editor.Lines ++ [lineOf bytes]
        LineCount := editor.LineCount + 1
        Dirty := true } := by
  have hnot : ¬ editor.LineCount > editor.LineCount := by omega
  simp only [InsertLine, if_neg hnot, lineOf, Nat.sub_self, List.take_zero, List.append_nil]
  rw [← hlen, List.take_length, List.take_left']
  rfl

theorem loadLoop_serialize (text : List (List Nat)) (fuel : Nat) (editor : Term_Editor)
    (hfuel : text.length ≤ fuel) (hlen : editor.Lines.length = editor.LineCount)
    (hgood : ∀ bytes ∈ text, NEWLINE ∉ bytes ∧ bytes.getLast? ≠ some CR) :
    loadLoop fuel (serialize text) editor =
      { editor with
        Lines := editor.Lines ++ text.map lineOf
        LineCount := editor.LineCount + text.length
        Dirty := if text = [] then editor.Dirty else true } := by
  induction text generalizing fuel editor with
  | nil =>
    cases fuel <;> simp [loadLoop, serialize, getline]
  | cons s rest ih =>
    cases fuel with
    | zero => simp at hfuel
    | succ fuel =>
      obtain ⟨hs1, hs2⟩ := hgood s (by simp)
      have hrest : ∀ bytes ∈ rest, NEWLINE ∉ bytes ∧ bytes.getLast? ≠ some CR :=
        fun b hb => hgood b (by simp [hb])
      simp only [loadLoop, serialize, getline_line s (serialize rest) hs1,
        stripEol_line s hs1 hs2, InsertLine_append editor s [NEWLINE] hlen]
      rw [ih fuel _ (by simpa using hfuel) (by simp [hlen]) hrest]
      simp [Nat.add_assoc, Nat.add_comm 1]

theorem lineOf_raw (bytes : List Nat) : (lineOf bytes).raw = bytes := by
  simp [lineOf, Line_Data.raw, UpdateRenderLine]

/-- C6, as amended: when no line of the store holds a newline byte or ends with a carriage
return, the bytes SaveFile writes, read back by LoadFile into the editor of main, give
LineCount lines again, with the same raw bytes in the same order. -/
theorem C6_save_load_roundtrip (editor : Term_Editor) (rows columns : Nat) (filename : String)
    (hlen : editor.Lines.length = editor.LineCount)
    (hgood : ∀ line ∈ editor.Lines, NEWLINE ∉ line.raw ∧ line.raw.getLast? ≠ some CR) :
    ∃ e, LoadFile (initialEditor rows columns) filename (some (SaveFile_data editor)) = (true, e) ∧
      e.LineCount = editor.LineCount ∧ e.Lines.length = editor.LineCount ∧
      e.Lines.map Line_Data.raw = editor.Lines.map Line_Data.raw := by
  have htext : ∀ bytes ∈ editor.Lines.map Line_Data.raw,
      NEWLINE ∉ bytes ∧ bytes.getLast? ≠ some CR := by
    intro bytes hb
    obtain ⟨line, hline, rfl⟩ := List.mem_map.mp hb
    exact hgood line hline
  have hload := loadLoop_serialize (editor.Lines.map Line_Data.raw)
    (serialize (editor.Lines.map Line_Data.raw)).length
    { initialEditor rows columns with Filename := some filename }
    (serialize_length _) rfl htext
  refine ⟨_, rfl, ?_, ?_, ?_⟩
  · rw [SaveFile_data_eq, ← hlen, List.take_length, hload]
    simp [initialEditor]
  · rw [SaveFile_data_eq, ← hlen, List.take_length, hload]
    simp [initialEditor]
  · rw [SaveFile_data_eq, ← hlen, List.take_length, hload]
    simp only [initialEditor, List.nil_append, List.map_map]
    apply List.map_congr_left
    intro line _
    simp [lineOf_raw]

theorem C6_save_load_roundtrip_witness :
    (editorOf 5 80 [[97, 13, 98], [], [9, 99]] 0 0).Lines.length
      = (editorOf 5 80 [[97, 13, 98], [], [9, 99]] 0 0).LineCount ∧
    (∀ line ∈ (editorOf 5 80 [[97, 13, 98], [], [9, 99]] 0 0).Lines,
      NEWLINE ∉ line.raw ∧ line.raw.getLast? ≠ some CR) ∧
    ∃ e, LoadFile (initialEditor 22 80) sampleName
        (some (SaveFile_data (editorOf 5 80 [[97, 13, 98], [], [9, 99]] 0 0))) = (true, e) ∧
      e.LineCount = (editorOf 5 80 [[97, 13, 98], [], [9, 99]] 0 0).LineCount ∧
      e.Lines.length = (editorOf 5 80 [[97, 13, 98], [], [9, 99]] 0 0).LineCount ∧
      e.Lines.map Line_Data.raw
        = (editorOf 5 80 [[97, 13, 98], [], [9, 99]] 0 0).Lines.map Line_Data.raw :=
  ⟨rfl, by decide,
    C6_save_load_roundtrip (editorOf 5 80 [[97, 13, 98], [], [9, 99]] 0 0) 22 80 sampleName
      rfl (by decide)⟩

/-- C6 fails as stated for arbitrary raw bytes.  A store of one line holding the single
byte newline is written as two newline bytes and read back as two empty lines; a store of
one line holding "a" and a carriage return is read back as the line "a". -/
theorem C6_counterexample :
    (editorOf 5 80 [[10]] 0 0).LineCount = 1 ∧
    (LoadFile (initialEditor 22 80) sampleName
      (some (SaveFile_data (editorOf 5 80 [[10]] 0 0)))).2.LineCount = 2 ∧
    (editorOf 5 80 [[97, 13]] 0 0).Lines.map Line_Data.raw = [[97, 13]] ∧
    (LoadFile (initialEditor 22 80) sampleName
      (some (SaveFile_data (editorOf 5 80 [[97, 13]] 0 0)))).2.Lines.map Line_Data.raw
        = [[97]] :=
  ⟨rfl, rfl, rfl, rfl⟩

/-! ## Theorems: the keys of ProcessKeyInput -/

theorem ProcessKeyInput_backspace (save : Term_Editor → Term_Editor) (editor : Term_Editor) :
    ProcessKeyInput save editor KeyType_Backspace = (DeleteCharacter editor).bind snapCursor := by
  simp only [ProcessKeyInput, ProcessKeyInputBody, keySwitch]
  cases h : DeleteCharacter editor <;>
    simp [h, KeyType_Backspace, KeyType_Up, KeyType_Down, KeyType_Left, KeyType_Right,
      KeyType_PageDown, KeyType_PageUp, KEY_ENTER, KEY_ESC, CTRL_KEY, KeyType_Del,
      KeyType_Home, KeyType_End]

theorem ProcessKeyInput_del (save : Term_Editor → Term_Editor) (editor : Term_Editor) :
    ProcessKeyInput save editor KeyType_Del =
      (DeleteCharacter
        { editor with CursorPos := { editor.CursorPos with x := editor.CursorPos.x + 1 } }).bind
        snapCursor := by
  simp only [ProcessKeyInput, ProcessKeyInputBody, keySwitch]
  cases h : DeleteCharacter
      { editor with CursorPos := { editor.CursorPos with x := editor.CursorPos.x + 1 } } <;>
    simp [h, KeyType_Backspace, KeyType_Up, KeyType_Down, KeyType_Left, KeyType_Right,
      KeyType_PageDown, KeyType_PageUp, KEY_ENTER, KEY_ESC, CTRL_KEY, KeyType_Del,
      KeyType_Home, KeyType_End]

theorem ProcessKeyInput_enter (save : Term_Editor → Term_Editor) (editor : Term_Editor) :
    ProcessKeyInput save editor KEY_ENTER = (insertNewLine editor).bind snapCursor := by
  simp only [ProcessKeyInput, ProcessKeyInputBody, keySwitch]
  cases h : insertNewLine editor <;>
    simp [h, KeyType_Backspace, KeyType_Up, KeyType_Down, KeyType_Left, KeyType_Right,
      KeyType_PageDown, KeyType_PageUp, KEY_ENTER, KEY_ESC, CTRL_KEY, KeyType_Del,
      KeyType_Home, KeyType_End]

theorem ProcessKeyInput_default (save : Term_Editor → Term_Editor) (editor : Term_Editor)
    (character : Nat) (hkey : isDefaultKey character) :
    ProcessKeyInput save editor character = (InsertCharacter editor character).bind snapCursor := by
  obtain ⟨h1, h2, h3, h4, h5, h6, h7, h8, h9, h10, h11, h12, h13, h14, h15, h16⟩ := hkey
  simp only [ProcessKeyInput, ProcessKeyInputBody, keySwitch]
  cases h : InsertCharacter editor character <;>
    simp [h, h1, h2, h3, h4, h5, h6, h7, h8, h9, h10, h11, h12, h13, h14, h15, h16]

theorem snapCursor_of_le (editor : Term_Editor) (current : Line_Data)
    (hline : editor.Lines[editor.CursorPos.y]? = some current)
    (hx : editor.CursorPos.x ≤ current.Size) :
    snapCursor editor = some { editor with quitTimes := QUIT_TIMES } := by
  have hnot : ¬ editor.CursorPos.x > current.Size := by omega
  simp [snapCursor, readSize, hline, hnot]

/-- C11 at a failing input: a viewport of 1 row, the lines "a", "bc", the cursor at
column 1 of row 1.  DeleteCharacter finds the cursor row equal to RowCount and returns at
once: no byte is removed, the column stays 1 and Dirty stays false. -/
theorem C11_backspace_fails (save : Term_Editor → Term_Editor) :
    (editorOf 1 80 [[97], [98, 99]] 1 1).CursorPos.y < (editorOf 1 80 [[97], [98, 99]] 1 1).LineCount ∧
    ∃ e, ProcessKeyInput save (editorOf 1 80 [[97], [98, 99]] 1 1) KeyType_Backspace = some e ∧
      e.Lines.map Line_Data.raw = [[97], [98, 99]] ∧ e.CursorPos = { x := 1, y := 1 } ∧
      e.Dirty = false :=
  ⟨by decide, _, rfl, rfl, rfl, rfl⟩

/-- Away from the row RowCount, Backspace within a line does what the specification
says: with the cursor on a well-formed line of the store at a column from 1 to Size, the
byte before the column is removed, the column is decremented, the other lines and the row
are the same, and Dirty is set. -/
theorem backspace_in_line (save : Term_Editor → Term_Editor) (editor : Term_Editor)
    (current : Line_Data)
    (hrow : editor.CursorPos.y ≠ editor.RowCount)
    (hline : editor.Lines[editor.CursorPos.y]? = some current) (hwf : current.wf)
    (hpos : 0 < editor.CursorPos.x) (hcol : editor.CursorPos.x ≤ current.Size) :
    ∃ e updated, ProcessKeyInput save editor KeyType_Backspace = some e ∧
      e.Lines = editor.Lines.set editor.CursorPos.y updated ∧
      updated.Data = current.Data.take (editor.CursorPos.x - 1)
        ++ current.Data.drop editor.CursorPos.x ∧
      updated.Size = current.Size - 1 ∧ updated.renderOk ∧
      e.LineCount = editor.LineCount ∧
      e.CursorPos = { x := editor.CursorPos.x - 1, y := editor.CursorPos.y } ∧
      e.Dirty = true := by
  obtain ⟨hlt, _⟩ := List.getElem?_eq_some.mp hline
  have hx0 : ¬ (editor.CursorPos.x = 0 ∧ editor.CursorPos.y = 0) := by omega
  obtain ⟨hd, hs⟩ := DeleteCharacterInLine_Data current (editor.CursorPos.x - 1) hwf (by omega)
  have hxx : editor.CursorPos.x - 1 + 1 = editor.CursorPos.x := by omega
  rw [hxx] at hd
  have hok : (DeleteCharacterInLine current (editor.CursorPos.x - 1)).renderOk := by
    unfold DeleteCharacterInLine
    rw [if_neg (by omega)]
    exact ⟨rfl, rfl⟩
  have hstep : DeleteCharacter editor = some
      { editor with
        Lines := editor.Lines.set editor.CursorPos.y
          (DeleteCharacterInLine current (editor.CursorPos.x - 1))
        CursorPos := { x := editor.CursorPos.x - 1, y := editor.CursorPos.y }
        Dirty := true } := by
    simp only [DeleteCharacter, if_neg hrow, if_neg hx0, if_pos hpos, hline]
  have hsnap := snapCursor_of_le
    { editor with
      Lines := editor.Lines.set editor.CursorPos.y
        (DeleteCharacterInLine current (editor.CursorPos.x - 1))
      CursorPos := { x := editor.CursorPos.x - 1, y := editor.CursorPos.y }
      Dirty := true }
    (DeleteCharacterInLine current (editor.CursorPos.x - 1))
    (by simp [List.getElem?_set, hlt])
    (by
      show editor.CursorPos.x - 1 ≤ (DeleteCharacterInLine current (editor.CursorPos.x - 1)).Size
      omega)
  exact ⟨{ editor with
      Lines := editor.Lines.set editor.CursorPos.y
        (DeleteCharacterInLine current (editor.CursorPos.x - 1))
      CursorPos := { x := editor.CursorPos.x - 1, y := editor.CursorPos.y }
      Dirty := true
      quitTimes := QUIT_TIMES }, DeleteCharacterInLine current (editor.CursorPos.x - 1),
    by rw [ProcessKeyInput_backspace, hstep, Option.some_bind, hsnap],
    rfl, hd, hs, hok, rfl, rfl, rfl⟩

/-- C12: in a state whose array holds LineCount > 0 lines, with the cursor at row 0,
column 0, the Backspace key returns a state with the same lines, LineCount, cursor
position and Dirty flag. -/
theorem C12_backspace_at_origin (save : Term_Editor → Term_Editor) (editor : Term_Editor)
    (hlen : editor.Lines.length = editor.LineCount) (hne : 0 < editor.LineCount)
    (hpos : editor.CursorPos = { x := 0, y := 0 }) :
    ∃ e, ProcessKeyInput save editor KeyType_Backspace = some e ∧
      e.Lines = editor.Lines ∧ e.LineCount = editor.LineCount ∧
      e.CursorPos = editor.CursorPos ∧ e.Dirty = editor.Dirty := by
  have hdel : DeleteCharacter editor = some editor := by
    simp [DeleteCharacter, hpos]
  obtain ⟨current, hcur⟩ : ∃ current, editor.Lines[editor.CursorPos.y]? = some current := by
    rw [hpos]
    have h0 : 0 < editor.Lines.length := by omega
    exact ⟨editor.Lines[0], List.getElem?_eq_getElem h0⟩
  have hsnap := snapCursor_of_le editor current hcur (by rw [hpos]; exact Nat.zero_le _)
  exact ⟨{ editor with quitTimes := QUIT_TIMES },
    by rw [ProcessKeyInput_backspace, hdel, Option.some_bind, hsnap], rfl, rfl, rfl, rfl⟩

theorem C12_backspace_at_origin_witness :
    (editorOf 22 80 [[97, 98], [99]] 0 0).Lines.length
      = (editorOf 22 80 [[97, 98], [99]] 0 0).LineCount ∧
    0 < (editorOf 22 80 [[97, 98], [99]] 0 0).LineCount ∧
    ∃ e, ProcessKeyInput id (editorOf 22 80 [[97, 98], [99]] 0 0) KeyType_Backspace = some e ∧
      e.Lines = (editorOf 22 80 [[97, 98], [99]] 0 0).Lines ∧
      e.LineCount = (editorOf 22 80 [[97, 98], [99]] 0 0).LineCount ∧
      e.CursorPos = (editorOf 22 80 [[97, 98], [99]] 0 0).CursorPos ∧
      e.Dirty = (editorOf 22 80 [[97, 98], [99]] 0 0).Dirty :=
  ⟨rfl, by decide,
    C12_backspace_at_origin id (editorOf 22 80 [[97, 98], [99]] 0 0) rfl (by decide) rfl⟩

/-- C13 at a failing input: a viewport of 3 rows, the lines "ab", "cd", "e", the cursor at
the end of row 0 (column 2).  The Delete key only increments the column, so DeleteCharacter
asks for the byte at index 2 of "ab", which is no byte: the lines are unchanged.  Arrow-Right
followed by Backspace goes to the start of row 1 and joins it onto row 0, giving "abcd". -/
theorem C13_delete_at_line_end_fails (save : Term_Editor → Term_Editor) :
    cursorInv (editorOf 3 80 [[97, 98], [99, 100], [101]] 2 0) ∧
    (∃ e, ProcessKeyInput save (editorOf 3 80 [[97, 98], [99, 100], [101]] 2 0) KeyType_Del
        = some e ∧
      e.Lines.map Line_Data.raw = [[97, 98], [99, 100], [101]] ∧
      e.CursorPos = { x := 2, y := 0 }) ∧
    ∃ e1 e2, ProcessKeyInput save (editorOf 3 80 [[97, 98], [99, 100], [101]] 2 0) KeyType_Right
        = some e1 ∧
      e1.CursorPos = { x := 0, y := 1 } ∧
      ProcessKeyInput save e1 KeyType_Backspace = some e2 ∧
      e2.Lines[0]?.map Line_Data.raw = some [97, 98, 99, 100] ∧
      e2.CursorPos = { x := 2, y := 0 } :=
  ⟨by decide, ⟨_, rfl, rfl, rfl⟩, ⟨_, _, rfl, rfl, rfl, rfl, rfl⟩⟩

/-- C14 at a failing input: one line "ab", clean (Dirty = false), the cursor at the end
of the buffer.  The Delete key removes nothing and leaves the cursor in place, but
DeleteCharacter sets Dirty after the call that removed nothing. -/
theorem C14_delete_at_buffer_end_fails (save : Term_Editor → Term_Editor) :
    (editorOf 22 80 [[97, 98]] 2 0).Dirty = false ∧
    ∃ e, ProcessKeyInput save (editorOf 22 80 [[97, 98]] 2 0) KeyType_Del = some e ∧
      e.Lines = (editorOf 22 80 [[97, 98]] 2 0).Lines ∧
      e.CursorPos = { x := 2, y := 0 } ∧ e.Dirty = true :=
  ⟨rfl, _, rfl, rfl, rfl, rfl⟩

/-! ## Theorems: Enter and the printable bytes -/

theorem List_split_at {α : Type} (l : List α) (i : Nat) (a : α) (h : l[i]? = some a) :
    l = l.take i ++ a :: l.drop (i + 1) := by
  obtain ⟨hlt, hget⟩ := List.getElem?_eq_some.mp h
  conv_lhs => rw [← List.take_append_drop i l, List.drop_eq_getElem_cons hlt, hget]

theorem List_take_succ_of_get {α : Type} (l : List α) (i : Nat) (a : α) (h : l[i]? = some a) :
    l.take (i + 1) = l.take i ++ [a] := by
  rw [List.take_succ, h]; rfl

theorem List_set_middle {α : Type} (pre post : List α) (a b : α) (i : Nat)
    (hi : pre.length = i) :
    (pre ++ a :: post).set i b = pre ++ b :: post := by
  subst hi
  simp

theorem List_get_middle {α : Type} (pre post : List α) (a : α) (i : Nat)
    (hi : pre.length = i) :
    (pre ++ a :: post)[i]? = some a := by
  subst hi
  rw [List.getElem?_append_right (Nat.le_refl _)]
  simp

theorem List_length_take_of_get {α : Type} (l : List α) (i : Nat) (a : α)
    (h : l[i]? = some a) : (l.take i).length = i := by
  obtain ⟨hlt, _⟩ := List.getElem?_eq_some.mp h
  rw [List.length_take]; omega

theorem drop_take_rest (editor : Term_Editor) (i : Nat)
    (hlen : editor.Lines.length = editor.LineCount) :
    (editor.Lines.drop i).take (editor.LineCount - i) = editor.Lines.drop i :=
  List.take_of_length_le (by simp; omega)

/-- The Enter case on a line of the store with the cursor column within the line. -/
theorem insertNewLine_eq (editor : Term_Editor) (current : Line_Data)
    (hlen : editor.Lines.length = editor.LineCount)
    (hline : editor.Lines[editor.CursorPos.y]? = some current)
    (hcol : editor.CursorPos.x ≤ current.Size) :
    ∃ upper lower, insertNewLine editor = some
        { editor with
          Lines := editor.Lines.take editor.CursorPos.y ++ upper :: lower
            :: editor.Lines.drop (editor.CursorPos.y + 1)
          LineCount := editor.LineCount + 1
          Dirty := true
          CursorPos := { x := 0, y := editor.CursorPos.y + 1 } } ∧
      upper.raw = current.raw.take editor.CursorPos.x ∧
      lower.raw = current.raw.drop editor.CursorPos.x ∧
      upper.renderOk ∧ (current.renderOk → lower.renderOk) := by
  obtain ⟨hlt, hget⟩ := List.getElem?_eq_some.mp hline
  have hy : ¬ editor.CursorPos.y > editor.LineCount := by omega
  have hy1 : ¬ editor.CursorPos.y + 1 > editor.LineCount := by omega
  by_cases hx : editor.CursorPos.x = 0
  · refine ⟨lineOf [], current, ?_, ?_, ?_, ⟨rfl, rfl⟩, fun h => h⟩
    · simp only [insertNewLine, if_pos hx, InsertLine, if_neg hy, drop_take_rest editor _ hlen]
      rw [List.drop_eq_getElem_cons hlt, hget]
      simp [lineOf]
    · simp [hx, Line_Data.raw, lineOf, UpdateRenderLine]
    · simp [hx]
  · have hnot : ¬ editor.CursorPos.x > current.Size := by omega
    refine ⟨UpdateRenderLine
        { current with Size := editor.CursorPos.x, Data := current.Data.take editor.CursorPos.x },
      UpdateRenderLine
        { Size := current.Size - editor.CursorPos.x
          Data := (current.Data.drop editor.CursorPos.x).take (current.Size - editor.CursorPos.x)
          RenderSize := 0, RenderData := [] }, ?_, ?_, ?_, ⟨rfl, rfl⟩, fun _ => ⟨rfl, rfl⟩⟩
    · have hmid : (editor.Lines.take editor.CursorPos.y ++ current ::
          (UpdateRenderLine
            { Size := current.Size - editor.CursorPos.x
              Data := (current.Data.drop editor.CursorPos.x).take
                (current.Size - editor.CursorPos.x)
              RenderSize := 0, RenderData := [] }) ::
          editor.Lines.drop (editor.CursorPos.y + 1))[editor.CursorPos.y]? = some current :=
        List_get_middle _ _ _ _ (List_length_take_of_get _ _ _ hline)
      simp only [insertNewLine, if_neg hx, hline, if_neg hnot, InsertLine, if_neg hy1,
        drop_take_rest editor _ hlen, List_take_succ_of_get _ _ _ hline, List.append_assoc,
        List.singleton_append, List.cons_append, List.nil_append, hmid]
      rw [List_set_middle _ _ _ _ _ (List_length_take_of_get _ _ _ hline)]
    · simp only [Line_Data.raw, UpdateRenderLine_Data, UpdateRenderLine_Size, List.take_take]
      congr 1
      omega
    · simp only [Line_Data.raw, UpdateRenderLine_Data, UpdateRenderLine_Size, List.take_take,
        Nat.min_self, List.drop_take]

/-- C15: with the cursor on a line of the store (in a state whose array has LineCount
elements) and its column within the line, the Enter key returns a state with one more
line, in which the cursor row holds the raw bytes before the column, the next row holds
the raw bytes from the column on, the lines before and after are the same, the cursor is at
column 0 of the next row and Dirty is set. -/
theorem C15_enter_splits (save : Term_Editor → Term_Editor) (editor : Term_Editor)
    (current : Line_Data)
    (hlen : editor.Lines.length = editor.LineCount)
    (hline : editor.Lines[editor.CursorPos.y]? = some current)
    (hcol : editor.CursorPos.x ≤ current.Size) :
    ∃ e upper lower, ProcessKeyInput save editor KEY_ENTER = some e ∧
      e.Lines = editor.Lines.take editor.CursorPos.y ++ upper :: lower
        :: editor.Lines.drop (editor.CursorPos.y + 1) ∧
      upper.raw = current.raw.take editor.CursorPos.x ∧
      lower.raw = current.raw.drop editor.CursorPos.x ∧
      upper.renderOk ∧ (current.renderOk → lower.renderOk) ∧
      e.LineCount = editor.LineCount + 1 ∧ e.Lines.length = e.LineCount ∧
      e.CursorPos = { x := 0, y := editor.CursorPos.y + 1 } ∧ e.Dirty = true := by
  obtain ⟨upper, lower, hnew, hup, hlow, hok1, hok2⟩ :=
    insertNewLine_eq editor current hlen hline hcol
  have htake := List_length_take_of_get _ _ _ hline
  have hnext : (editor.Lines.take editor.CursorPos.y ++ upper :: lower
      :: editor.Lines.drop (editor.CursorPos.y + 1))[editor.CursorPos.y + 1]? = some lower := by
    have h := List_get_middle (editor.Lines.take editor.CursorPos.y ++ [upper])
      (editor.Lines.drop (editor.CursorPos.y + 1)) lower (editor.CursorPos.y + 1)
      (by rw [List.length_append, htake]; rfl)
    simpa using h
  have hsnap := snapCursor_of_le
    { editor with
      Lines := editor.Lines.take editor.CursorPos.y ++ upper :: lower
        :: editor.Lines.drop (editor.CursorPos.y + 1)
      LineCount := editor.LineCount + 1
      Dirty := true
      CursorPos := { x := 0, y := editor.CursorPos.y + 1 } } lower hnext (Nat.zero_le _)
  refine ⟨_, upper, lower, by rw [ProcessKeyInput_enter, hnew, Option.some_bind, hsnap],
    rfl, hup, hlow, hok1, hok2, rfl, ?_, rfl, rfl⟩
  obtain ⟨hlt, _⟩ := List.getElem?_eq_some.mp hline
  simp only [List.length_append, List.length_cons, List.length_drop, htake]
  omega

theorem C15_enter_splits_witness :
    (editorOf 22 80 [[120], [97, 9, 98], [121]] 2 1).Lines.length
      = (editorOf 22 80 [[120], [97, 9, 98], [121]] 2 1).LineCount ∧
    (editorOf 22 80 [[120], [97, 9, 98], [121]] 2 1).Lines[1]? = some (lineOf [97, 9, 98]) ∧
    2 ≤ (lineOf [97, 9, 98]).Size ∧
    ∃ e upper lower,
      ProcessKeyInput id (editorOf 22 80 [[120], [97, 9, 98], [121]] 2 1) KEY_ENTER = some e ∧
      e.Lines = [lineOf [120]] ++ upper :: lower :: [lineOf [121]] ∧
      upper.raw = [97, 9] ∧ lower.raw = [98] ∧
      upper.renderOk ∧ ((lineOf [97, 9, 98]).renderOk → lower.renderOk) ∧
      e.LineCount = 4 ∧ e.Lines.length = e.LineCount ∧
      e.CursorPos = { x := 0, y := 2 } ∧ e.Dirty = true :=
  ⟨rfl, rfl, by decide,
    C15_enter_splits id (editorOf 22 80 [[120], [97, 9, 98], [121]] 2 1) (lineOf [97, 9, 98])
      rfl rfl (by decide)⟩

theorem InsertCharacterInLine_raw (current : Line_Data) (col b : Nat) (hwf : current.wf)
    (hcol : col ≤ current.Size) :
    (InsertCharacterInLine current col b).raw
      = current.raw.take col ++ b :: current.raw.drop col := by
  obtain ⟨hd, hs⟩ := InsertCharacterInLine_Data current col b hwf hcol
  unfold Line_Data.wf at hwf
  have hraw : current.raw = current.Data := by
    unfold Line_Data.raw; rw [hwf, List.take_length]
  rw [hraw]
  unfold Line_Data.raw
  rw [hd, hs]
  apply List.take_of_length_le
  simp
  omega

theorem InsertCharacterInLine_renderOk (current : Line_Data) (col b : Nat) :
    (InsertCharacterInLine current col b).renderOk := ⟨rfl, rfl⟩

/-- C16: in a well-formed state that satisfies the cursor invariant, a byte of the default
case first appends an empty line when the cursor row is LineCount, then replaces the line at
the cursor row by one whose raw bytes have the byte inserted at the cursor column; the
other lines are the same, the column grows by one, the row is the same, Dirty is set. -/
theorem C16_printable_byte (save : Term_Editor → Term_Editor) (editor : Term_Editor) (b : Nat)
    (hkey : isDefaultKey b) (hwf : editor.wf) (hinv : cursorInv editor) :
    ∃ e current updated, ProcessKeyInput save editor b = some e ∧
      (if editor.CursorPos.y = editor.LineCount then editor.Lines ++ [lineOf []]
        else editor.Lines)[editor.CursorPos.y]? = some current ∧
      e.Lines = (if editor.CursorPos.y = editor.LineCount then editor.Lines ++ [lineOf []]
        else editor.Lines).set editor.CursorPos.y updated ∧
      updated.raw = current.raw.take editor.CursorPos.x ++ b :: current.raw.drop editor.CursorPos.x ∧
      updated.renderOk ∧
      e.LineCount = (if editor.CursorPos.y = editor.LineCount then editor.LineCount + 1
        else editor.LineCount) ∧
      e.Lines.length = e.LineCount ∧
      e.CursorPos = { x := editor.CursorPos.x + 1, y := editor.CursorPos.y } ∧
      e.Dirty = true := by
  obtain ⟨hlen, hlines⟩ := hwf
  obtain ⟨hrow, hcolumn⟩ := hinv
  rw [ProcessKeyInput_default save editor b hkey]
  by_cases hy : editor.CursorPos.y = editor.LineCount
  · have hnone : editor.Lines[editor.CursorPos.y]? = none := by
      rw [List.getElem?_eq_none_iff]; omega
    rw [hnone] at hcolumn
    have hx : editor.CursorPos.x = 0 := hcolumn
    have hins := InsertLine_append editor [] [] hlen
    simp only [List.append_nil, List.length_nil] at hins
    have hget : (editor.Lines ++ [lineOf []])[editor.CursorPos.y]? = some (lineOf []) :=
      List_get_middle _ _ _ _ (by omega)
    have hset : (editor.Lines ++ [lineOf []]).set editor.CursorPos.y
        (InsertCharacterInLine (lineOf []) editor.CursorPos.x b)
        = editor.Lines ++ [InsertCharacterInLine (lineOf []) editor.CursorPos.x b] :=
      List_set_middle _ _ _ _ _ (by omega)
    have hstep : InsertCharacter editor b = some
        { editor with
          Lines := editor.Lines ++ [InsertCharacterInLine (lineOf []) editor.CursorPos.x b]
          LineCount := editor.LineCount + 1
          Dirty := true
          CursorPos := { x := editor.CursorPos.x + 1, y := editor.CursorPos.y } } := by
      simp only [InsertCharacter, if_pos hy, hins, hget, hset]
    have hsnap := snapCursor_of_le
      { editor with
        Lines := editor.Lines ++ [InsertCharacterInLine (lineOf []) editor.CursorPos.x b]
        LineCount := editor.LineCount + 1
        Dirty := true
        CursorPos := { x := editor.CursorPos.x + 1, y := editor.CursorPos.y } }
      (InsertCharacterInLine (lineOf []) editor.CursorPos.x b)
      (List_get_middle _ _ _ _ (by show editor.Lines.length = editor.CursorPos.y; omega))
      (by rw [hx]; exact Nat.le_refl 1)
    refine ⟨_, lineOf [], InsertCharacterInLine (lineOf []) editor.CursorPos.x b,
      by rw [hstep, Option.some_bind, hsnap], by rw [if_pos hy]; exact hget,
      by rw [if_pos hy]; exact hset.symm,
      InsertCharacterInLine_raw _ _ _ rfl (by rw [hx]; exact Nat.zero_le _),
      InsertCharacterInLine_renderOk _ _ _, by rw [if_pos hy], by simp [hlen], rfl, rfl⟩
  · have hlt : editor.CursorPos.y < editor.Lines.length := by omega
    have hget : editor.Lines[editor.CursorPos.y]? = some editor.Lines[editor.CursorPos.y] :=
      List.getElem?_eq_getElem hlt
    generalize hcur : editor.Lines[editor.CursorPos.y] = current at hget
    rw [hget] at hcolumn
    have hx : editor.CursorPos.x ≤ current.Size := hcolumn
    have hcwf : current.wf := hlines current (by rw [← hcur]; exact List.getElem_mem _)
    have hstep : InsertCharacter editor b = some
        { editor with
          Lines := editor.Lines.set editor.CursorPos.y
            (InsertCharacterInLine current editor.CursorPos.x b)
          Dirty := true
          CursorPos := { x := editor.CursorPos.x + 1, y := editor.CursorPos.y } } := by
      simp only [InsertCharacter, if_neg hy, hget]
    have hsnap := snapCursor_of_le
      { editor with
        Lines := editor.Lines.set editor.CursorPos.y
          (InsertCharacterInLine current editor.CursorPos.x b)
        Dirty := true
        CursorPos := { x := editor.CursorPos.x + 1, y := editor.CursorPos.y } }
      (InsertCharacterInLine current editor.CursorPos.x b)
      (by simp [List.getElem?_set, hlt])
      (by
        have := (InsertCharacterInLine_Data current editor.CursorPos.x b hcwf hx).2
        show editor.CursorPos.x + 1 ≤ (InsertCharacterInLine current editor.CursorPos.x b).Size
        omega)
    refine ⟨_, current, InsertCharacterInLine current editor.CursorPos.x b,
      by rw [hstep, Option.some_bind, hsnap], by rw [if_neg hy]; exact hget,
      by rw [if_neg hy],
      InsertCharacterInLine_raw _ _ _ hcwf hx,
      InsertCharacterInLine_renderOk _ _ _, by rw [if_neg hy], by simp [hlen], rfl, rfl⟩

theorem C16_printable_byte_witness :
    isDefaultKey 120 ∧ (editorOf 22 80 [[97, 98], [99]] 1 0).wf ∧
    cursorInv (editorOf 22 80 [[97, 98], [99]] 1 0) ∧
    ∃ e current updated, ProcessKeyInput id (editorOf 22 80 [[97, 98], [99]] 1 0) 120 = some e ∧
      [lineOf [97, 98], lineOf [99]][0]? = some current ∧
      e.Lines = [lineOf [97, 98], lineOf [99]].set 0 updated ∧
      updated.raw = current.raw.take 1 ++ 120 :: current.raw.drop 1 ∧
      updated.renderOk ∧ e.LineCount = 2 ∧ e.Lines.length = e.LineCount ∧
      e.CursorPos = { x := 2, y := 0 } ∧ e.Dirty = true :=
  ⟨by decide, by decide, by decide,
    C16_printable_byte id (editorOf 22 80 [[97, 98], [99]] 1 0) 120
      (by decide) (by decide) (by decide)⟩

/-! ## Theorems: the Quit key -/

theorem snapCursor_running (e e1 : Term_Editor) (h : snapCursor e = some e1) :
    e1.GlobalRunning = e.GlobalRunning ∧ e1.Dirty = e.Dirty ∧ e1.quitTimes = QUIT_TIMES := by
  unfold snapCursor at h
  split at h
  · cases h
  · cases h; exact ⟨rfl, rfl, rfl⟩

theorem InsertLine_running (e : Term_Editor) (i : Nat) (data : List Nat) (n : Nat) :
    (InsertLine e i data n).GlobalRunning = e.GlobalRunning := by
  unfold InsertLine
  split <;> rfl

theorem InsertCharacter_running (e e1 : Term_Editor) (c : Nat)
    (h : InsertCharacter e c = some e1) : e1.GlobalRunning = e.GlobalRunning := by
  unfold InsertCharacter at h
  dsimp only at h
  repeat' split at h
  all_goals first
    | (cases h; done)
    | (cases h; exact InsertLine_running _ _ _ _)
    | (cases h; rfl)

theorem DeleteLine_running (e e1 : Term_Editor) (i : Nat) (h : DeleteLine e i = some e1) :
    e1.GlobalRunning = e.GlobalRunning := by
  unfold DeleteLine at h
  split_ifs at h <;> cases h <;> rfl

theorem DeleteCharacter_running (e e1 : Term_Editor) (h : DeleteCharacter e = some e1) :
    e1.GlobalRunning = e.GlobalRunning := by
  unfold DeleteCharacter at h
  dsimp only at h
  repeat' split at h
  all_goals first
    | (cases h; done)
    | (cases h; rfl)
    | (rename_i editor2 hdel; cases h
       have hrun := DeleteLine_running _ _ _ hdel
       exact hrun)

theorem insertNewLine_running (e e1 : Term_Editor) (h : insertNewLine e = some e1) :
    e1.GlobalRunning = e.GlobalRunning := by
  unfold insertNewLine at h
  dsimp only at h
  repeat' split at h
  all_goals first
    | (cases h; done)
    | (cases h; exact InsertLine_running _ _ _ _)

theorem repeatKey_running (step : Term_Editor → Option Term_Editor)
    (hstep : ∀ e e1, step e = some e1 → e1.GlobalRunning = e.GlobalRunning)
    (times : Nat) (e e1 : Term_Editor) (h : repeatKey step times e = some e1) :
    e1.GlobalRunning = e.GlobalRunning := by
  induction times generalizing e with
  | zero => cases h; rfl
  | succ n ih =>
    unfold repeatKey at h
    split at h
    · cases h
    · rename_i mid hmid
      rw [ih mid h, hstep e mid hmid]

theorem keySwitch_running (self : Term_Editor → Nat → Option Term_Editor)
    (save : Term_Editor → Term_Editor)
    (hself : ∀ e c e1, c = KeyType_Up ∨ c = KeyType_Down → self e c = some e1 →
      e1.GlobalRunning = e.GlobalRunning)
    (hsave : ∀ e, (save e).GlobalRunning = e.GlobalRunning)
    (e e1 : Term_Editor) (c : Nat) (h : keySwitch self save e c = some e1) :
    e1.GlobalRunning = e.GlobalRunning := by
  unfold keySwitch at h
  by_cases h1 : c = KeyType_Up
  · rw [if_pos h1] at h
    split at h <;> cases h <;> rfl
  rw [if_neg h1] at h
  by_cases h2 : c = KeyType_Down
  · rw [if_pos h2] at h
    split at h <;> cases h <;> rfl
  rw [if_neg h2] at h
  by_cases h3 : c = KeyType_Left
  · rw [if_pos h3] at h
    repeat' split at h
    all_goals first
      | (cases h; done)
      | (cases h; rfl)
  rw [if_neg h3] at h
  by_cases h4 : c = KeyType_Right
  · rw [if_pos h4] at h
    repeat' split at h
    all_goals first
      | (cases h; done)
      | (cases h; rfl)
  rw [if_neg h4] at h
  by_cases h5 : c = KeyType_PageDown ∨ c = KeyType_PageUp
  · rw [if_pos h5] at h
    have hrep := repeatKey_running _
      (fun a a1 ha => hself a _ a1 (by split <;> simp) ha) _ _ _ h
    rw [hrep]
    dsimp only
    split <;> rfl
  rw [if_neg h5] at h
  by_cases h6 : c = KEY_ENTER
  · rw [if_pos h6] at h
    exact insertNewLine_running _ _ h
  rw [if_neg h6] at h
  by_cases h7 : c = KEY_ESC
  · rw [if_pos h7] at h; cases h; rfl
  rw [if_neg h7] at h
  by_cases h8 : c = CTRL_KEY 104
  · rw [if_pos h8] at h; cases h; rfl
  rw [if_neg h8] at h
  by_cases h9 : c = CTRL_KEY 108
  · rw [if_pos h9] at h; cases h; rfl
  rw [if_neg h9] at h
  by_cases h10 : c = CTRL_KEY 115
  · rw [if_pos h10] at h; cases h; exact hsave e
  rw [if_neg h10] at h
  by_cases h11 : c = KeyType_Del ∨ c = KeyType_Backspace
  · rw [if_pos h11] at h
    have hrun := DeleteCharacter_running _ _ h
    rw [hrun]
    split <;> rfl
  rw [if_neg h11] at h
  by_cases h12 : c = KeyType_Home
  · rw [if_pos h12] at h; cases h; rfl
  rw [if_neg h12] at h
  by_cases h13 : c = KeyType_End
  · rw [if_pos h13] at h
    split at h
    · cases h
    · cases h; rfl
  rw [if_neg h13] at h
  exact InsertCharacter_running _ _ _ h

theorem ProcessKeyInputBody_running (self : Term_Editor → Nat → Option Term_Editor)
    (save : Term_Editor → Term_Editor)
    (hself : ∀ e c e1, c = KeyType_Up ∨ c = KeyType_Down → self e c = some e1 →
      e1.GlobalRunning = e.GlobalRunning)
    (hsave : ∀ e, (save e).GlobalRunning = e.GlobalRunning)
    (e e1 : Term_Editor) (c : Nat) (hc : c ≠ CTRL_KEY 113)
    (h : ProcessKeyInputBody self save e c = some e1) :
    e1.GlobalRunning = e.GlobalRunning ∧ e1.quitTimes = QUIT_TIMES := by
  unfold ProcessKeyInputBody at h
  rw [if_neg hc] at h
  split at h
  · cases h
  · rename_i mid hmid
    obtain ⟨hr, _, hq⟩ := snapCursor_running _ _ h
    exact ⟨by rw [hr, keySwitch_running self save hself hsave _ _ _ hmid], hq⟩

/-- A key other than Quit leaves the running flag as it is and resets `quitTimes`. -/
theorem ProcessKeyInput_running (save : Term_Editor → Term_Editor)
    (hsave : ∀ e, (save e).GlobalRunning = e.GlobalRunning)
    (e e1 : Term_Editor) (c : Nat) (hc : c ≠ CTRL_KEY 113)
    (h : ProcessKeyInput save e c = some e1) :
    e1.GlobalRunning = e.GlobalRunning ∧ e1.quitTimes = QUIT_TIMES := by
  unfold ProcessKeyInput at h
  refine ProcessKeyInputBody_running _ save ?_ hsave e e1 c hc h
  intro a k a1 hk ha
  have hk2 : k ≠ CTRL_KEY 113 := by
    rcases hk with hk | hk <;> rw [hk] <;> decide
  exact (ProcessKeyInputBody_running _ save (fun _ _ _ _ hn => by cases hn) hsave a a1 k hk2 ha).1

theorem quitWarned_fields (e : Term_Editor) :
    (quitWarned e).GlobalRunning = e.GlobalRunning ∧ (quitWarned e).quitTimes = e.quitTimes - 1 ∧
    (quitWarned e).StatusMessage = (quitWarningText e.quitTimes).take 79 ∧
    (quitWarned e).Lines = e.Lines ∧ (quitWarned e).CursorPos = e.CursorPos ∧
    (quitWarned e).Dirty = e.Dirty := by
  refine ⟨?_, ?_, ?_, ?_, ?_, ?_⟩ <;> simp only [quitWarned, SetStatusMessage]

theorem ProcessKeyInput_quit_warn (save : Term_Editor → Term_Editor) (editor : Term_Editor)
    (hdirty : editor.Dirty = true) (hq : 0 < editor.quitTimes) :
    ProcessKeyInput save editor (CTRL_KEY 113) = some (quitWarned editor) := by
  simp [ProcessKeyInput, ProcessKeyInputBody, hdirty, hq, quitWarned, quitWarningText]

theorem ProcessKeyInput_quit_exit (save : Term_Editor → Term_Editor) (editor : Term_Editor)
    (hq : ¬ (editor.Dirty = true ∧ editor.quitTimes > 0)) :
    ProcessKeyInput save editor (CTRL_KEY 113)
      = snapCursor { editor with GlobalRunning := false } := by
  simp only [ProcessKeyInput, ProcessKeyInputBody, if_pos, if_neg hq]

theorem snapCursor_of_row (e : Term_Editor) (hrow : e.CursorPos.y < e.Lines.length) :
    ∃ e1, snapCursor e = some e1 ∧ e1.GlobalRunning = e.GlobalRunning := by
  have hget : e.Lines[e.CursorPos.y]? = some e.Lines[e.CursorPos.y] :=
    List.getElem?_eq_getElem hrow
  simp only [snapCursor, readSize, hget]
  exact ⟨_, rfl, rfl⟩

set_option maxRecDepth 4000 in
theorem quitWarningText_one :
    (quitWarningText QUIT_TIMES).take 79
      = "WARNING!! File has unsaved changes. Press Ctrl-Q 1 more time to quit." := by
  decide

/-- The Quit key where the cursor row is a line of the store.  With Dirty set and
`quitTimes` at QUIT_TIMES, the first Quit key returns the state with the warning as status
message and the running flag untouched; the second Quit key sets the running flag to false
before the final column snap, and returns with the flag false when the cursor row is a line
of the store.  With Dirty not set a single Quit key does the same. -/
theorem quit_confirmation_on_line (save : Term_Editor → Term_Editor) (editor : Term_Editor) :
    (editor.Dirty = true → editor.quitTimes = QUIT_TIMES →
      ProcessKeyInput save editor (CTRL_KEY 113) = some (quitWarned editor) ∧
      (quitWarned editor).StatusMessage
        = "WARNING!! File has unsaved changes. Press Ctrl-Q 1 more time to quit." ∧
      (quitWarned editor).GlobalRunning = editor.GlobalRunning ∧
      ProcessKeyInput save (quitWarned editor) (CTRL_KEY 113)
        = snapCursor { quitWarned editor with GlobalRunning := false } ∧
      (editor.CursorPos.y < editor.Lines.length →
        ∃ e2, ProcessKeyInput save (quitWarned editor) (CTRL_KEY 113) = some e2 ∧
          e2.GlobalRunning = false)) ∧
    (editor.Dirty = false →
      ProcessKeyInput save editor (CTRL_KEY 113)
        = snapCursor { editor with GlobalRunning := false } ∧
      (editor.CursorPos.y < editor.Lines.length →
        ∃ e1, ProcessKeyInput save editor (CTRL_KEY 113) = some e1 ∧
          e1.GlobalRunning = false)) := by
  constructor
  · intro hdirty hq
    have hsecond : ProcessKeyInput save (quitWarned editor) (CTRL_KEY 113)
        = snapCursor { quitWarned editor with GlobalRunning := false } :=
      ProcessKeyInput_quit_exit save (quitWarned editor) (by
        rintro ⟨_, h0⟩
        have : (quitWarned editor).quitTimes = 0 := by
          rw [(quitWarned_fields editor).2.1, hq]; rfl
        omega)
    have hq0 : 0 < editor.quitTimes := by rw [hq]; unfold QUIT_TIMES; omega
    refine ⟨ProcessKeyInput_quit_warn save editor hdirty hq0, ?_,
      (quitWarned_fields editor).1, hsecond, ?_⟩
    · rw [(quitWarned_fields editor).2.2.1, hq]
      exact quitWarningText_one
    · intro hrow
      rw [hsecond]
      exact snapCursor_of_row { quitWarned editor with GlobalRunning := false }
        (by simp only [quitWarned, SetStatusMessage]; exact hrow)
  · intro hclean
    have hexit := ProcessKeyInput_quit_exit save editor (by rw [hclean]; simp)
    refine ⟨hexit, ?_⟩
    intro hrow
    rw [hexit]
    exact snapCursor_of_row { editor with GlobalRunning := false } hrow

theorem quit_confirmation_on_line_witness :
    (∃ e2, ProcessKeyInput id
        (quitWarned { editorOf 22 80 [[97]] 1 0 with Dirty := true }) (CTRL_KEY 113) = some e2 ∧
      e2.GlobalRunning = false) ∧
    ∃ e1, ProcessKeyInput id (editorOf 22 80 [[97]] 1 0) (CTRL_KEY 113) = some e1 ∧
      e1.GlobalRunning = false :=
  ⟨((quit_confirmation_on_line id { editorOf 22 80 [[97]] 1 0 with Dirty := true }).1
      rfl rfl).2.2.2.2 (by decide),
    ((quit_confirmation_on_line id (editorOf 22 80 [[97]] 1 0)).2 rfl).2 (by decide)⟩

/-- C17 at a failing input: the editor as main starts it without a file (empty document,
Lines null, Dirty not set, `quitTimes` at QUIT_TIMES, running), and a single Quit key.  The
Quit case assigns false to the running flag and leaves the switch; the column snap that
follows reads the Size of the line at the cursor row 0, which no array holds, so the call
does not return a state with the flag false. -/
theorem C17_quit_on_empty_fails (save : Term_Editor → Term_Editor) :
    (initialEditor 22 80).Dirty = false ∧ (initialEditor 22 80).quitTimes = QUIT_TIMES ∧
    (initialEditor 22 80).GlobalRunning = true ∧ (initialEditor 22 80).Lines = [] ∧
    ProcessKeyInput save (initialEditor 22 80) (CTRL_KEY 113)
      = snapCursor { initialEditor 22 80 with GlobalRunning := false } ∧
    readSize { initialEditor 22 80 with GlobalRunning := false }
      (initialEditor 22 80).CursorPos.y = none ∧
    ProcessKeyInput save (initialEditor 22 80) (CTRL_KEY 113) = none :=
  ⟨rfl, rfl, rfl, rfl, ProcessKeyInput_quit_exit save (initialEditor 22 80) (by decide),
    rfl, rfl⟩

/-- C18: from a dirty, running state with no Quit press pending, after the Quit key and then
a key other than Quit that returns a state still dirty, `quitTimes` is at QUIT_TIMES again and
the next Quit key only warns: the running flag is still true.  SaveFile is taken not to
write the running flag. -/
theorem C18_quit_counter_reset (save : Term_Editor → Term_Editor)
    (hsave : ∀ e, (save e).GlobalRunning = e.GlobalRunning)
    (editor e2 : Term_Editor) (k : Nat) (hk : k ≠ CTRL_KEY 113)
    (hdirty : editor.Dirty = true) (hq : 0 < editor.quitTimes)
    (hrun : editor.GlobalRunning = true)
    (hstep : ProcessKeyInput save (quitWarned editor) k = some e2)
    (hstill : e2.Dirty = true) :
    ProcessKeyInput save editor (CTRL_KEY 113) = some (quitWarned editor) ∧
    e2.quitTimes = QUIT_TIMES ∧
    ProcessKeyInput save e2 (CTRL_KEY 113) = some (quitWarned e2) ∧
    (quitWarned e2).GlobalRunning = true := by
  obtain ⟨hr, hq2⟩ := ProcessKeyInput_running save hsave _ _ k hk hstep
  have hq0 : 0 < e2.quitTimes := by rw [hq2]; unfold QUIT_TIMES; omega
  refine ⟨ProcessKeyInput_quit_warn save editor hdirty hq, hq2,
    ProcessKeyInput_quit_warn save e2 hstill hq0, ?_⟩
  rw [(quitWarned_fields e2).1, hr, (quitWarned_fields editor).1]
  exact hrun

theorem C18_quit_counter_reset_witness :
    ∃ e2, ProcessKeyInput id (quitWarned { editorOf 22 80 [[97]] 1 0 with Dirty := true }) 120
        = some e2 ∧
      e2.Dirty = true ∧
      ProcessKeyInput id { editorOf 22 80 [[97]] 1 0 with Dirty := true } (CTRL_KEY 113)
        = some (quitWarned { editorOf 22 80 [[97]] 1 0 with Dirty := true }) ∧
      e2.quitTimes = QUIT_TIMES ∧
      ProcessKeyInput id e2 (CTRL_KEY 113) = some (quitWarned e2) ∧
      (quitWarned e2).GlobalRunning = true :=
  ⟨_, rfl, rfl,
    C18_quit_counter_reset id (fun _ => rfl) { editorOf 22 80 [[97]] 1 0 with Dirty := true } _
      120 (by decide) rfl (by decide) rfl rfl rfl⟩

/-! ## Theorems: the frame of UpdateScreen -/

/-- C19 at a failing input: a viewport of 22 rows and 80 columns, three lines, no file
name, clean, the cursor on row 0.  Both texts of the status bar print RowCount = 22 where
the line count 3 is meant. -/
theorem C19_status_bar_fails :
    (editorOf 22 80 [[97], [98], [99]] 0 0).LineCount = 3 ∧
    leftStatus (editorOf 22 80 [[97], [98], [99]] 0 0) = " [No Name] - 22 Lines " ∧
    rightStatus (editorOf 22 80 [[97], [98], [99]] 0 0) = "1/22 " ∧
    UpdateScreen_StatusBar (editorOf 22 80 [[97], [98], [99]] 0 0)
      = [ESC, 91, 55, 109] ++ bytesOf " [No Name] - 22 Lines " ++ List.replicate 53 SPACE
        ++ bytesOf "1/22 " ++ [ESC, 91, 109, CR, NEWLINE] :=
  ⟨rfl, by decide, by decide, by decide⟩

/-- C20 at a failing input: the empty document in a viewport of 24 rows and 32 columns.
The message takes all 32 columns, `padding` is 0, `if(padding--)` leaves it at -1, and the
loop `while(padding--)` starts from -1: it appends spaces without meeting 0, so the row of
the intro message (row 8) emits more than ColumnCount bytes and the loop ends in an int
overflow. -/
theorem C20_intro_row_fails :
    (initialEditor 24 32).LineCount = 0 ∧ 0 < (initialEditor 24 32).RowCount ∧
    0 < (initialEditor 24 32).ColumnCount ∧
    introLen (initialEditor 24 32) = 32 ∧ introPadding (initialEditor 24 32) = 0 ∧
    whilePadding (introPadding (initialEditor 24 32) - 1) = none ∧
    drawRow (initialEditor 24 32) 8 = none ∧
    UpdateScreen_Rows (initialEditor 24 32) = none :=
  ⟨rfl, by decide, by decide, by decide, by decide, by decide, by decide, by decide⟩

/-- The scenario of the empty document in a viewport of 24 rows and 80 columns: row 8
holds a tilde, 23 spaces and the intro message, 56 bytes in all; another row holds a
tilde; each row ends with the erase marker and "\r\n". -/
theorem drawRow_intro_scenario :
    drawRow (initialEditor 24 80) 8
      = some ([TILDE] ++ List.replicate 23 SPACE ++ bytesOf introMessage
        ++ [ESC, 91, 75] ++ [CR, NEWLINE]) ∧
    drawRow (initialEditor 24 80) 0 = some ([TILDE] ++ [ESC, 91, 75] ++ [CR, NEWLINE]) :=
  ⟨by decide, by decide⟩

theorem introMessage_length : introMessage.length = 32 := by decide

theorem bytesOf_introMessage_length : (bytesOf introMessage).length = 32 := by decide

/-- With at least 34 columns the intro-message branch appends a tilde, `padding - 1`
spaces and the whole message: `padding + 32` bytes, at most ColumnCount. -/
theorem introRow_wide (editor : Term_Editor) (hC : 34 ≤ editor.ColumnCount) :
    introRow editor = some ([TILDE]
      ++ List.replicate ((editor.ColumnCount - 32) / 2 - 1) SPACE ++ bytesOf introMessage) ∧
    ([TILDE] ++ List.replicate ((editor.ColumnCount - 32) / 2 - 1) SPACE
      ++ bytesOf introMessage).length = (editor.ColumnCount - 32) / 2 + 32 ∧
    (editor.ColumnCount - 32) / 2 + 32 ≤ editor.ColumnCount := by
  have hlen : introLen editor = 32 := by
    unfold introLen
    rw [introMessage_length, if_neg (by omega)]
  have hpad : introPadding editor = (((editor.ColumnCount - 32) / 2 : Nat) : Int) := by
    unfold introPadding; rw [hlen]
  have hpos : 1 ≤ (editor.ColumnCount - 32) / 2 := by omega
  refine ⟨?_, ?_, by omega⟩
  · have hne : introPadding editor ≠ 0 := by rw [hpad]; omega
    have hwhile : whilePadding (introPadding editor - 1)
        = some (List.replicate ((editor.ColumnCount - 32) / 2 - 1) SPACE) := by
      unfold whilePadding
      rw [hpad, if_pos (by omega)]
      congr 2
      omega
    unfold introRow
    simp only [hwhile, hlen, if_pos hne]
    rw [List.take_of_length_le (by rw [bytesOf_introMessage_length])]
  · simp only [List.length_append, List.length_replicate, bytesOf_introMessage_length,
      List.length_singleton]
    omega

/-- The bytes of the text row `y` of the empty document, for a viewport wide enough. -/
theorem drawRow_empty_wide (editor : Term_Editor) (y : Nat) (hdoc : editor.LineCount = 0)
    (hC : 34 ≤ editor.ColumnCount) :
    drawRow editor y = some
      ((if y = editor.RowCount / 3 then
          [TILDE] ++ List.replicate ((editor.ColumnCount - 32) / 2 - 1) SPACE
            ++ bytesOf introMessage
        else [TILDE]) ++ [ESC, 91, 75] ++ [CR, NEWLINE]) := by
  unfold drawRow
  have hnot : ¬ y + editor.Offset.y < editor.LineCount := by omega
  dsimp only
  rw [if_neg hnot]
  by_cases hy : y = editor.RowCount / 3
  · rw [if_pos ⟨hdoc, hy⟩, if_pos hy, (introRow_wide editor hC).1]
  · rw [if_neg (fun h => hy h.2), if_neg hy]

/-- The row loop on the empty document, for a viewport wide enough: every row is drawn,
`count` rows from row `y` on. -/
theorem drawRowsFrom_empty_wide (editor : Term_Editor) (hdoc : editor.LineCount = 0)
    (hC : 34 ≤ editor.ColumnCount) (y count : Nat) :
    ∃ bytes, drawRowsFrom editor y count = some bytes := by
  induction count generalizing y with
  | zero => exact ⟨[], rfl⟩
  | succ n ih =>
    obtain ⟨rest, hrest⟩ := ih (y + 1)
    unfold drawRowsFrom
    rw [drawRow_empty_wide editor y hdoc hC, hrest]
    exact ⟨_, rfl⟩

/-! ## Theorems: the reference expansion and the render column -/

/-- C21: for every line, the render UpdateRenderLine builds is the reference tab expansion
of the raw bytes, started at column 0, and RenderSize is its length.  The raw bytes "a",
tab, "b" give "a", seven spaces, "b", of length 9. -/
theorem C21_render_is_reference (line : Line_Data) :
    (UpdateRenderLine line).RenderData = expandFrom 0 line.raw ∧
    (UpdateRenderLine line).RenderSize = (expandFrom 0 line.raw).length ∧
    (UpdateRenderLine { Size := 3, Data := [97, 9, 98], RenderSize := 0, RenderData := [] }).RenderData
      = [97, 32, 32, 32, 32, 32, 32, 32, 98] ∧
    (UpdateRenderLine { Size := 3, Data := [97, 9, 98], RenderSize := 0, RenderData := [] }).RenderSize
      = 9 := by
  refine ⟨?_, ?_, by decide, by decide⟩
  · simp [UpdateRenderLine, renderLoop_eq, Line_Data.raw]
  · simp [UpdateRenderLine, renderLoop_eq, Line_Data.raw]

theorem walkColumns_eq (bytes : List Nat) :
    walkColumns bytes = (expandFrom 0 bytes).length := by
  unfold walkColumns
  have key : ∀ (cs : List Nat) (rx : Nat),
      cs.foldl (fun rx c =>
          (if c = TAB then rx + ((TAB_WIDTH - 1) - rx % TAB_WIDTH) else rx) + 1) rx
        = rx + (expandFrom rx cs).length := by
    intro cs
    induction cs with
    | nil => intro rx; simp [expandFrom]
    | cons c cs ih =>
      intro rx
      rw [List.foldl_cons, ih]
      by_cases hc : c = TAB
      · simp only [hc, if_true, expandFrom, List.length_append, List.length_replicate, TAB_WIDTH]
        have h1 : rx + (8 - 1 - rx % 8) + 1 = rx + (8 - rx % 8) := by omega
        rw [h1]
        omega
      · simp only [hc, if_false, expandFrom, List.length_cons]
        omega
  simpa using key bytes 0

theorem lineOf_render (bytes : List Nat) :
    (lineOf bytes).RenderData = expandFrom 0 bytes ∧
    (lineOf bytes).RenderSize = (expandFrom 0 bytes).length := by
  unfold lineOf UpdateRenderLine
  simp only [renderLoop_eq, List.take_length, and_self]

/-- C22: with the cursor on a line of the store at a column within its raw bytes, the block
CxToRx (and so the scroll step of UpdateScreen) gives as RenderCursorX the RenderSize that
UpdateRenderLine builds for the raw bytes before the column; the first RenderCursorX bytes
of the render of the line are the render of those bytes, and RenderCursorX is at most the
RenderSize of the line. -/
theorem C22_render_cursor_column (editor : Term_Editor) (current : Line_Data)
    (hline : editor.Lines[editor.CursorPos.y]? = some current)
    (hcol : editor.CursorPos.x ≤ current.raw.length) :
    CxToRx editor = some (lineOf (current.raw.take editor.CursorPos.x)).RenderSize ∧
    (∃ e, UpdateScreen_Scroll editor = some e ∧
      e.RenderCursorX = (lineOf (current.raw.take editor.CursorPos.x)).RenderSize) ∧
    (UpdateRenderLine current).RenderData.take
        (lineOf (current.raw.take editor.CursorPos.x)).RenderSize
      = (lineOf (current.raw.take editor.CursorPos.x)).RenderData ∧
    (lineOf (current.raw.take editor.CursorPos.x)).RenderSize
      ≤ (UpdateRenderLine current).RenderSize ∧
    (current.renderOk →
      current.RenderData.take (lineOf (current.raw.take editor.CursorPos.x)).RenderSize
        = (lineOf (current.raw.take editor.CursorPos.x)).RenderData ∧
      (lineOf (current.raw.take editor.CursorPos.x)).RenderSize ≤ current.RenderSize) := by
  have hrawlen : current.raw.length = min current.Size current.Data.length := by
    simp [Line_Data.raw]
  have hx1 : editor.CursorPos.x ≤ current.Size := by omega
  have hx2 : editor.CursorPos.x ≤ current.Data.length := by omega
  have hpre : current.raw.take editor.CursorPos.x = current.Data.take editor.CursorPos.x := by
    simp only [Line_Data.raw, List.take_take]
    congr 1
    omega
  have hsize : (lineOf (current.raw.take editor.CursorPos.x)).RenderSize
      = (expandFrom 0 (current.raw.take editor.CursorPos.x)).length :=
    (lineOf_render _).2
  have hdata : (lineOf (current.raw.take editor.CursorPos.x)).RenderData
      = expandFrom 0 (current.raw.take editor.CursorPos.x) :=
    (lineOf_render _).1
  have hfull : (UpdateRenderLine current).RenderData
      = expandFrom 0 (current.raw.take editor.CursorPos.x)
        ++ expandFrom (0 + (expandFrom 0 (current.raw.take editor.CursorPos.x)).length)
          (current.raw.drop editor.CursorPos.x) := by
    rw [← expandFrom_append, List.take_append_drop]
    simp [UpdateRenderLine, renderLoop_eq, Line_Data.raw]
  have hfullsize : (UpdateRenderLine current).RenderSize
      = (UpdateRenderLine current).RenderData.length := by
    simp [UpdateRenderLine, renderLoop_eq]
  have hcx : CxToRx editor = some (lineOf (current.raw.take editor.CursorPos.x)).RenderSize := by
    rw [hsize, hpre, ← walkColumns_eq]
    unfold CxToRx
    by_cases h0 : editor.CursorPos.x = 0
    · rw [if_pos h0, h0]
      rfl
    · rw [if_neg h0]
      simp only [hline, if_pos hx2]
  have htake : (UpdateRenderLine current).RenderData.take
      (lineOf (current.raw.take editor.CursorPos.x)).RenderSize
      = (lineOf (current.raw.take editor.CursorPos.x)).RenderData := by
    rw [hsize, hdata, hfull, List.take_left']
    rfl
  have hle : (lineOf (current.raw.take editor.CursorPos.x)).RenderSize
      ≤ (UpdateRenderLine current).RenderSize := by
    rw [hfullsize, hfull, hsize, List.length_append]
    omega
  refine ⟨hcx, ?_, htake, hle, ?_⟩
  · simp only [UpdateScreen_Scroll, hcx]
    exact ⟨_, rfl, rfl⟩
  · intro hok
    have h1 : current.RenderData = (UpdateRenderLine current).RenderData := hok.1
    have h2 : current.RenderSize = (UpdateRenderLine current).RenderSize := hok.2
    rw [h1, h2]
    exact ⟨htake, hle⟩

theorem C22_render_cursor_column_witness :
    (editorOf 22 80 [[97, 9, 98, 9, 99]] 4 0).Lines[0]? = some (lineOf [97, 9, 98, 9, 99]) ∧
    4 ≤ (lineOf [97, 9, 98, 9, 99]).raw.length ∧
    CxToRx (editorOf 22 80 [[97, 9, 98, 9, 99]] 4 0) = some 16 ∧
    (lineOf [97, 9, 98, 9]).RenderSize = 16 ∧
    (lineOf [97, 9, 98, 9, 99]).RenderData.take 16 = (lineOf [97, 9, 98, 9]).RenderData :=
  ⟨rfl, by decide,
    (C22_render_cursor_column (editorOf 22 80 [[97, 9, 98, 9, 99]] 4 0)
      (lineOf [97, 9, 98, 9, 99]) rfl (by decide)).1,
    by decide,
    ((C22_render_cursor_column (editorOf 22 80 [[97, 9, 98, 9, 99]] 4 0)
      (lineOf [97, 9, 98, 9, 99]) rfl (by decide)).2.2.2.2 (by decide)).1⟩

/-! ## Theorems: the Page keys -/

theorem ProcessKeyInputBody_down (self : Term_Editor → Nat → Option Term_Editor)
    (save : Term_Editor → Term_Editor) (editor : Term_Editor) :
    ProcessKeyInputBody self save editor KeyType_Down = snapCursor (arrowDown editor) := by
  simp [ProcessKeyInputBody, keySwitch, arrowDown, KeyType_Down, KeyType_Up, CTRL_KEY]

theorem ProcessKeyInputBody_up (self : Term_Editor → Nat → Option Term_Editor)
    (save : Term_Editor → Term_Editor) (editor : Term_Editor) :
    ProcessKeyInputBody self save editor KeyType_Up = snapCursor (arrowUp editor) := by
  simp [ProcessKeyInputBody, keySwitch, arrowUp, KeyType_Up, CTRL_KEY]

theorem ProcessKeyInput_down (save : Term_Editor → Term_Editor) (editor : Term_Editor) :
    ProcessKeyInput save editor KeyType_Down = snapCursor (arrowDown editor) := by
  rw [ProcessKeyInput, ProcessKeyInputBody_down]

theorem ProcessKeyInput_up (save : Term_Editor → Term_Editor) (editor : Term_Editor) :
    ProcessKeyInput save editor KeyType_Up = snapCursor (arrowUp editor) := by
  rw [ProcessKeyInput, ProcessKeyInputBody_up]

theorem keySwitch_pageDown (self : Term_Editor → Nat → Option Term_Editor)
    (save : Term_Editor → Term_Editor) (editor : Term_Editor) :
    keySwitch self save editor KeyType_PageDown =
      repeatKey (fun e => self e KeyType_Down) editor.RowCount (pageDownStart editor) := by
  unfold keySwitch
  rw [if_neg (by decide), if_neg (by decide), if_neg (by decide), if_neg (by decide),
    if_pos (Or.inl rfl)]
  simp only [show ¬ (KeyType_PageDown = KeyType_PageUp) from by decide, if_false]
  rfl

theorem keySwitch_pageUp (self : Term_Editor → Nat → Option Term_Editor)
    (save : Term_Editor → Term_Editor) (editor : Term_Editor) :
    keySwitch self save editor KeyType_PageUp =
      repeatKey (fun e => self e KeyType_Up) editor.RowCount (pageUpStart editor) := by
  unfold keySwitch
  rw [if_neg (by decide), if_neg (by decide), if_neg (by decide), if_neg (by decide),
    if_pos (Or.inr rfl)]
  simp only [if_true]
  rfl

theorem ProcessKeyInputBody_other (self : Term_Editor → Nat → Option Term_Editor)
    (save : Term_Editor → Term_Editor) (editor : Term_Editor) (c : Nat)
    (hc : c ≠ CTRL_KEY 113) :
    ProcessKeyInputBody self save editor c = (keySwitch self save editor c).bind snapCursor := by
  unfold ProcessKeyInputBody
  rw [if_neg hc]
  cases keySwitch self save editor c <;> rfl

theorem ProcessKeyInput_pageDown (save : Term_Editor → Term_Editor) (editor : Term_Editor) :
    ProcessKeyInput save editor KeyType_PageDown =
      (repeatKey (fun e => ProcessKeyInput save e KeyType_Down) editor.RowCount
        (pageDownStart editor)).bind snapCursor := by
  have hfun : (fun e => ProcessKeyInputBody (fun _ _ => none) save e KeyType_Down)
      = (fun e => ProcessKeyInput save e KeyType_Down) := by
    funext e
    rw [ProcessKeyInput_down, ProcessKeyInputBody_down]
  rw [ProcessKeyInput, ProcessKeyInputBody_other _ _ _ _ (by decide), keySwitch_pageDown, hfun]

theorem ProcessKeyInput_pageUp (save : Term_Editor → Term_Editor) (editor : Term_Editor) :
    ProcessKeyInput save editor KeyType_PageUp =
      (repeatKey (fun e => ProcessKeyInput save e KeyType_Up) editor.RowCount
        (pageUpStart editor)).bind snapCursor := by
  have hfun : (fun e => ProcessKeyInputBody (fun _ _ => none) save e KeyType_Up)
      = (fun e => ProcessKeyInput save e KeyType_Up) := by
    funext e
    rw [ProcessKeyInput_up, ProcessKeyInputBody_up]
  rw [ProcessKeyInput, ProcessKeyInputBody_other _ _ _ _ (by decide), keySwitch_pageUp, hfun]

/-- The column snap on a state whose cursor row is a line: it returns, keeps the row, the
lines, LineCount and Dirty, and a second snap changes nothing. -/
theorem snapCursor_spec (e : Term_Editor) (hrow : e.CursorPos.y < e.Lines.length) :
    ∃ e1, snapCursor e = some e1 ∧ e1.CursorPos.y = e.CursorPos.y ∧ e1.Lines = e.Lines ∧
      e1.LineCount = e.LineCount ∧ e1.Dirty = e.Dirty ∧ snapCursor e1 = some e1 := by
  have hget : e.Lines[e.CursorPos.y]? = some e.Lines[e.CursorPos.y] :=
    List.getElem?_eq_getElem hrow
  by_cases hx : e.CursorPos.x > e.Lines[e.CursorPos.y].Size
  · refine ⟨{ e with
        CursorPos := { e.CursorPos with x := e.Lines[e.CursorPos.y].Size }
        quitTimes := QUIT_TIMES }, ?_, rfl, rfl, rfl, rfl, ?_⟩
    · simp only [snapCursor, readSize, hget, if_pos hx]
    · simp only [snapCursor, readSize, hget, gt_iff_lt, Nat.lt_irrefl, if_false]
  · refine ⟨{ e with quitTimes := QUIT_TIMES }, ?_, rfl, rfl, rfl, rfl, ?_⟩
    · simp only [snapCursor, readSize, hget, if_neg hx]
    · simp only [snapCursor, readSize, hget, if_neg hx]

theorem arrowDown_step (save : Term_Editor → Term_Editor) (s : Term_Editor)
    (hlen : s.Lines.length = s.LineCount) (hy : s.CursorPos.y < s.LineCount) :
    ∃ e1, ProcessKeyInput save s KeyType_Down = some e1 ∧
      e1.CursorPos.y = min (s.CursorPos.y + 1) (s.LineCount - 1) ∧ e1.Lines = s.Lines ∧
      e1.LineCount = s.LineCount ∧ e1.Dirty = s.Dirty ∧ snapCursor e1 = some e1 := by
  have hsub : subz s.LineCount 1 = s.LineCount - 1 := by
    unfold subz; rw [if_pos (by omega)]
  rw [ProcessKeyInput_down]
  unfold arrowDown
  rw [hsub]
  by_cases hlast : s.CursorPos.y < s.LineCount - 1
  · rw [if_pos hlast]
    obtain ⟨e1, h1, h2, h3, h4, h5, h6⟩ := snapCursor_spec
      { s with CursorPos := { s.CursorPos with y := s.CursorPos.y + 1 } }
      (by show s.CursorPos.y + 1 < s.Lines.length; omega)
    refine ⟨e1, h1, ?_, h3, h4, h5, h6⟩
    rw [h2]
    show s.CursorPos.y + 1 = min (s.CursorPos.y + 1) (s.LineCount - 1)
    omega
  · rw [if_neg hlast]
    obtain ⟨e1, h1, h2, h3, h4, h5, h6⟩ := snapCursor_spec s (by omega)
    refine ⟨e1, h1, ?_, h3, h4, h5, h6⟩
    rw [h2]
    omega

theorem arrowUp_step (save : Term_Editor → Term_Editor) (s : Term_Editor)
    (hlen : s.Lines.length = s.LineCount) (hne : 0 < s.LineCount)
    (hy : s.CursorPos.y ≤ s.LineCount) :
    ∃ e1, ProcessKeyInput save s KeyType_Up = some e1 ∧
      e1.CursorPos.y = s.CursorPos.y - 1 ∧ e1.Lines = s.Lines ∧
      e1.LineCount = s.LineCount ∧ e1.Dirty = s.Dirty ∧ snapCursor e1 = some e1 := by
  rw [ProcessKeyInput_up]
  unfold arrowUp
  by_cases hpos : s.CursorPos.y > 0
  · rw [if_pos hpos]
    obtain ⟨e1, h1, h2, h3, h4, h5, h6⟩ := snapCursor_spec
      { s with CursorPos := { s.CursorPos with y := s.CursorPos.y - 1 } }
      (by show s.CursorPos.y - 1 < s.Lines.length; omega)
    exact ⟨e1, h1, h2, h3, h4, h5, h6⟩
  · rw [if_neg hpos]
    obtain ⟨e1, h1, h2, h3, h4, h5, h6⟩ := snapCursor_spec s (by omega)
    refine ⟨e1, h1, ?_, h3, h4, h5, h6⟩
    rw [h2]
    omega

theorem repeat_arrowDown (save : Term_Editor → Term_Editor) (n : Nat) (s : Term_Editor)
    (hlen : s.Lines.length = s.LineCount) (hy : s.CursorPos.y < s.LineCount) :
    ∃ e, repeatKey (fun a => ProcessKeyInput save a KeyType_Down) n s = some e ∧
      e.CursorPos.y = min (s.CursorPos.y + n) (s.LineCount - 1) ∧ e.Lines = s.Lines ∧
      e.LineCount = s.LineCount ∧ e.Dirty = s.Dirty ∧ (0 < n → snapCursor e = some e) := by
  induction n generalizing s with
  | zero =>
    refine ⟨s, rfl, ?_, rfl, rfl, rfl, fun h => absurd h (Nat.lt_irrefl 0)⟩
    show s.CursorPos.y = min (s.CursorPos.y + 0) (s.LineCount - 1)
    omega
  | succ n ih =>
    obtain ⟨s1, h1, h2, h3, h4, h5, h6⟩ := arrowDown_step save s hlen hy
    obtain ⟨e, g1, g2, g3, g4, g5, g6⟩ := ih s1 (by rw [h3, h4]; exact hlen) (by rw [h2, h4]; omega)
    refine ⟨e, ?_, ?_, by rw [g3, h3], by rw [g4, h4], by rw [g5, h5], ?_⟩
    · simp only [repeatKey, h1]
      exact g1
    · rw [g2, h2, h4]
      omega
    · intro _
      cases n with
      | zero =>
        have : e = s1 := by
          have h0 : repeatKey (fun a => ProcessKeyInput save a KeyType_Down) 0 s1 = some s1 := rfl
          rw [h0] at g1
          exact (Option.some.inj g1).symm
        rw [this]; exact h6
      | succ m => exact g6 (Nat.succ_pos m)

theorem repeat_arrowUp (save : Term_Editor → Term_Editor) (n : Nat) (s : Term_Editor)
    (hlen : s.Lines.length = s.LineCount) (hne : 0 < s.LineCount)
    (hy : s.CursorPos.y ≤ s.LineCount) :
    ∃ e, repeatKey (fun a => ProcessKeyInput save a KeyType_Up) n s = some e ∧
      e.CursorPos.y = s.CursorPos.y - n ∧ e.Lines = s.Lines ∧
      e.LineCount = s.LineCount ∧ e.Dirty = s.Dirty ∧ (0 < n → snapCursor e = some e) := by
  induction n generalizing s with
  | zero =>
    exact ⟨s, rfl, rfl, rfl, rfl, rfl, fun h => absurd h (Nat.lt_irrefl 0)⟩
  | succ n ih =>
    obtain ⟨s1, h1, h2, h3, h4, h5, h6⟩ := arrowUp_step save s hlen hne hy
    obtain ⟨e, g1, g2, g3, g4, g5, g6⟩ := ih s1 (by rw [h3, h4]; exact hlen)
      (by rw [h4]; exact hne) (by rw [h2, h4]; omega)
    refine ⟨e, ?_, ?_, by rw [g3, h3], by rw [g4, h4], by rw [g5, h5], ?_⟩
    · simp only [repeatKey, h1]
      exact g1
    · rw [g2, h2]
      omega
    · intro _
      cases n with
      | zero =>
        have : e = s1 := by
          have h0 : repeatKey (fun a => ProcessKeyInput save a KeyType_Up) 0 s1 = some s1 := rfl
          rw [h0] at g1
          exact (Option.some.inj g1).symm
        rw [this]; exact h6
      | succ m => exact g6 (Nat.succ_pos m)

/-- After the scroll step with at least one visible row, Offset.y is at most the cursor
row plus one; so Offset.y <= LineCount whenever the cursor row is a line. -/
theorem scroll_offset_le (e0 e : Term_Editor) (hR : 0 < e0.RowCount)
    (h : UpdateScreen_Scroll e0 = some e) :
    e.Offset.y ≤ e0.CursorPos.y + 1 ∧ e.LineCount = e0.LineCount ∧
      e.CursorPos = e0.CursorPos := by
  unfold UpdateScreen_Scroll at h
  split at h
  · cases h
  · cases h
    refine ⟨?_, rfl, rfl⟩
    simp only [subz]
    split_ifs <;> omega

/-- C23: in a state whose array holds LineCount > 0 lines, with RowCount > 0, Page Down
returns the state that RowCount Arrow-Down events give from the cursor placed on the bottom
row of the viewport (or the last line), with the cursor row min(Offset.y + 2 RowCount - 1,
LineCount - 1); when Offset.y is at most LineCount, as it is after every scroll step, Page
Up returns the state that RowCount Arrow-Up events give from the cursor placed on the top
row of the viewport, with the cursor row Offset.y - RowCount, or 0 when Offset.y is below
RowCount.  The lines, LineCount and Dirty are unchanged. -/
theorem C23_page_keys (save : Term_Editor → Term_Editor) (editor : Term_Editor)
    (hlen : editor.Lines.length = editor.LineCount) (hne : 0 < editor.LineCount)
    (hR : 0 < editor.RowCount) :
    (∃ e, ProcessKeyInput save editor KeyType_PageDown = some e ∧
      repeatKey (fun a => ProcessKeyInput save a KeyType_Down) editor.RowCount
        (pageDownStart editor) = some e ∧
      (pageDownStart editor).CursorPos.y
        = min (editor.Offset.y + editor.RowCount - 1) (editor.LineCount - 1) ∧
      e.CursorPos.y = min (editor.Offset.y + 2 * editor.RowCount - 1) (editor.LineCount - 1) ∧
      e.Lines = editor.Lines ∧ e.LineCount = editor.LineCount ∧ e.Dirty = editor.Dirty) ∧
    (editor.Offset.y ≤ editor.LineCount →
      ∃ e, ProcessKeyInput save editor KeyType_PageUp = some e ∧
        repeatKey (fun a => ProcessKeyInput save a KeyType_Up) editor.RowCount
          (pageUpStart editor) = some e ∧
        (pageUpStart editor).CursorPos.y = editor.Offset.y ∧
        e.CursorPos.y = (if editor.RowCount ≤ editor.Offset.y then
          editor.Offset.y - editor.RowCount else 0) ∧
        e.Lines = editor.Lines ∧ e.LineCount = editor.LineCount ∧ e.Dirty = editor.Dirty) := by
  constructor
  · have hs1 : subz (editor.Offset.y + editor.RowCount) 1
        = editor.Offset.y + editor.RowCount - 1 := by
      unfold subz; rw [if_pos (by omega)]
    have hs2 : subz editor.LineCount 1 = editor.LineCount - 1 := by
      unfold subz; rw [if_pos (by omega)]
    have hstart : (pageDownStart editor).CursorPos.y
        = min (editor.Offset.y + editor.RowCount - 1) (editor.LineCount - 1) := by
      show (if subz (editor.Offset.y + editor.RowCount) 1 > subz editor.LineCount 1 then
          subz editor.LineCount 1 else subz (editor.Offset.y + editor.RowCount) 1) = _
      rw [hs1, hs2]
      split_ifs <;> omega
    obtain ⟨e, g1, g2, g3, g4, g5, g6⟩ := repeat_arrowDown save editor.RowCount
      (pageDownStart editor) hlen (by rw [hstart]; show _ < editor.LineCount; omega)
    refine ⟨e, ?_, g1, hstart, ?_, g3, g4, g5⟩
    · rw [ProcessKeyInput_pageDown, g1, Option.some_bind]
      exact g6 hR
    · rw [g2, hstart]
      show min (_ + editor.RowCount) (editor.LineCount - 1) = _
      omega
  · intro hoff
    obtain ⟨e, g1, g2, g3, g4, g5, g6⟩ := repeat_arrowUp save editor.RowCount
      (pageUpStart editor) hlen hne hoff
    refine ⟨e, ?_, g1, rfl, ?_, g3, g4, g5⟩
    · rw [ProcessKeyInput_pageUp, g1, Option.some_bind]
      exact g6 hR
    · rw [g2]
      show editor.Offset.y - editor.RowCount = _
      split_ifs <;> omega

theorem C23_page_keys_witness :
    (∃ e, ProcessKeyInput id
        { editorOf 2 80 [[97], [98, 99], [], [100], [101], [102]] 1 2 with
          Offset := { x := 0, y := 1 } } KeyType_PageDown = some e ∧
      e.CursorPos.y = 4) ∧
    ∃ e, ProcessKeyInput id
        { editorOf 2 80 [[97], [98, 99], [], [100], [101], [102]] 1 4 with
          Offset := { x := 0, y := 3 } } KeyType_PageUp = some e ∧
      e.CursorPos.y = 1 :=
  ⟨(fun ⟨e, h1, _, _, h4, _⟩ => ⟨e, h1, h4⟩)
      (C23_page_keys id
        { editorOf 2 80 [[97], [98, 99], [], [100], [101], [102]] 1 2 with
          Offset := { x := 0, y := 1 } } rfl (by decide) (by decide)).1,
    (fun ⟨e, h1, _, _, h4, _⟩ => ⟨e, h1, h4⟩)
      ((C23_page_keys id
        { editorOf 2 80 [[97], [98, 99], [], [100], [101], [102]] 1 4 with
          Offset := { x := 0, y := 3 } } rfl (by decide) (by decide)).2 (by decide))⟩

end TerminalEditor
